import Mathlib

/-!
Mission_Chat: session routing, role policy and history

A shallow embedding of the `Mission_Chat` class of `src/index.js` (a Durable Object
relaying chat frames between the roles ICC, CLIENT and OPERATOR of a mission), and
theorems about its policy, routing, persistence and validation behaviour.

Modelling conventions
* JavaScript values that reach the class (decoded JSON, header strings, `undefined`) are
  values of `JsVal`. JSON numbers are modelled by integers: the code only ever tests a
  number for being zero.
* `this.sessions` (a `Map`, iterated in insertion order) is an association list.
* `this.state.storage` is a key/value store; the class only uses the key `"history"`.
* `ws.send`, `storage.get` and `storage.put` may throw; which of them do is given by a
  `Faults` record. A throwing operation aborts the enclosing function exactly as an
  uncaught JavaScript exception does: the state changes made so far stay.
* Every call of `ws.send` is recorded in `sendLog`, with a flag telling whether the frame
  was delivered, so that theorems can speak about what each connection received.
* `Date.now()` is the next reading of a clock `clk : Nat → Nat`; the state counts readings.
* `JSON.parse` and `crypto.randomUUID()` are external: the former is a parameter, the
  result of the latter is an argument of `handleSession`.
* Which object serves a mission is not decided by the class. Where a statement needs it,
  `Deployment` gives every mission id its own object, as the specification describes.
-/

namespace MissionChat

/-! ## JavaScript values -/

/-- A JavaScript value as the class can observe it: `undefined` or decoded JSON. -/
inductive JsVal where
  | undefined : JsVal
  | null : JsVal
  | bool (b : Bool) : JsVal
  | num (n : Int) : JsVal
  | str (s : String) : JsVal
  | arr (items : List JsVal) : JsVal
  | obj (fields : List (String × JsVal)) : JsVal

/-- The test `v === s` for a string literal or string variable `s`. -/
def JsVal.strictEqStr : JsVal → String → Bool
  | .str t, s => t == s
  | _, _ => false

/-- JavaScript truthiness, the meaning of `!v` being false. -/
def JsVal.truthy : JsVal → Bool
  | .undefined => false
  | .null => false
  | .bool b => b
  | .num n => n != 0
  | .str s => s != ""
  | .arr _ => true
  | .obj _ => true

/-- The property read of a destructuring `const { k } = v`: it throws a `TypeError`
(`none`) on `null` and `undefined`, reads an own property of an object, and yields
`undefined` for a property that is absent (as `message`, `missionId` and `senderRole`
are on every primitive and array). -/
def JsVal.getProp : JsVal → String → Option JsVal
  | .undefined, _ => none
  | .null, _ => none
  | .obj fields, k => some ((fields.lookup k).getD .undefined)
  | _, _ => some .undefined

/-! ## State -/

/-- Session identifiers are the strings produced by `crypto.randomUUID()`. -/
abbrev SessionId := String

/-- The identity of a WebSocket handle. -/
abbrev Conn := Nat

/-- A registry entry `{ ws, role, missionId }` (line 44). -/
structure Session where
  ws : Conn
  role : String
  missionId : String
  deriving DecidableEq, Repr

/-- A history entry `{ senderRole, message, timestamp }` (lines 112-116). -/
structure HistoryEntry where
  senderRole : JsVal
  message : JsVal
  timestamp : Nat

/-- The object handed to `JSON.stringify` before `ws.send`. -/
inductive Frame where
  | envelope (sender : JsVal) (message : JsVal) (timestamp : Nat) : Frame
  | error (text : String) : Frame

/-- One call of `ws.send`: the handle, the frame, and whether it was delivered. -/
structure SendEvent where
  ws : Conn
  frame : Frame
  delivered : Bool

/-- The durable key/value storage of the object; the newest binding of a key is first. -/
abbrev Storage := List (String × List HistoryEntry)

/-- The result of `storage.get(key)`: `none` is `undefined`. -/
def Storage.get (s : Storage) (key : String) : Option (List HistoryEntry) :=
  s.lookup key

/-- The effect of `storage.put(key, value)`. -/
def Storage.put (s : Storage) (key : String) (value : List HistoryEntry) : Storage :=
  (key, value) :: s

/-- The state of a `Mission_Chat` object together with the trace of its effects. -/
structure Mission_Chat where
  sessions : List (SessionId × Session)
  storage : Storage
  sendLog : List SendEvent
  clockReads : Nat

/-- The object after its constructor (line 5), on empty storage. -/
def Mission_Chat.init : Mission_Chat :=
  { sessions := [], storage := [], sendLog := [], clockReads := 0 }

/-- Which external operations throw during a call. -/
structure Faults where
  sendFails : Conn → Bool
  getFails : Bool
  putFails : Bool

/-- No operation throws. -/
def Faults.none : Faults :=
  { sendFails := fun _ => false, getFails := false, putFails := false }

/-- Completion of an async function: a value, or a thrown error. -/
inductive Completion (α : Type) where
  | returned (value : α) : Completion α
  | threw (what : String) : Completion α

/-! ## The policy and the router -/

/-- The expression `allowed` of lines 97-99. -/
def allowed (senderRole : JsVal) (receiverRole : String) : Bool :=
  (senderRole.strictEqStr "ICC" && (receiverRole == "CLIENT" || receiverRole == "OPERATOR")) ||
  ((senderRole.strictEqStr "CLIENT" || senderRole.strictEqStr "OPERATOR") && receiverRole == "ICC")

/-- The ICC-hub rule in the words of the specification: exactly one side of the pair is
ICC and the other side is CLIENT or OPERATOR. -/
def iccHubRule (senderRole receiverRole : String) : Prop :=
  (senderRole = "ICC" ∧ receiverRole ≠ "ICC" ∧ (receiverRole = "CLIENT" ∨ receiverRole = "OPERATOR")) ∨
  (receiverRole = "ICC" ∧ senderRole ≠ "ICC" ∧ (senderRole = "CLIENT" ∨ senderRole = "OPERATOR"))

/-- The call `Date.now()`: the next reading of the clock. -/
def dateNow (clk : Nat → Nat) (st : Mission_Chat) : Nat × Mission_Chat :=
  (clk st.clockReads, { st with clockReads := st.clockReads + 1 })

/-- The call `ws.send(JSON.stringify(frame))`: recorded in the log; `false` when it throws. -/
def wsSend (f : Faults) (st : Mission_Chat) (ws : Conn) (frame : Frame) : Mission_Chat × Bool :=
  ({ st with sendLog := st.sendLog ++ [⟨ws, frame, !f.sendFails ws⟩] }, !f.sendFails ws)

/-- The loop of lines 88-108 over the entries that remain to be visited. The result is
`false` when a `ws.send` threw, which leaves the loop at once. -/
def broadcastLoop (clk : Nat → Nat) (f : Faults) (missionId senderRole message : JsVal) :
    List (SessionId × Session) → Mission_Chat → Mission_Chat × Bool
  | [], st => (st, true)
  | (_, session) :: rest, st =>
    if !missionId.strictEqStr session.missionId then
      broadcastLoop clk f missionId senderRole message rest st
    else if !allowed senderRole session.role then
      broadcastLoop clk f missionId senderRole message rest st
    else
      let (now, st1) := dateNow clk st
      let (st2, sent) := wsSend f st1 session.ws (.envelope senderRole message now)
      if sent then broadcastLoop clk f missionId senderRole message rest st2
      else (st2, false)

/-- The persistence step of lines 110-118. -/
def persistMessage (clk : Nat → Nat) (f : Faults) (senderRole message : JsVal)
    (st : Mission_Chat) : Mission_Chat × Completion Unit :=
  if f.getFails then (st, .threw "storage.get")
  else
    let history := (st.storage.get "history").getD []
    let (now, st1) := dateNow clk st
    let history := history ++ [⟨senderRole, message, now⟩]
    if f.putFails then (st1, .threw "storage.put")
    else ({ st1 with storage := st1.storage.put "history" history }, .returned ())

/-- The method `broadcastMessage(missionId, senderRole, message)` (lines 85-119). -/
def broadcastMessage (clk : Nat → Nat) (f : Faults) (st : Mission_Chat)
    (missionId senderRole message : JsVal) : Mission_Chat × Completion Unit :=
  match broadcastLoop clk f missionId senderRole message st.sessions st with
  | (st1, false) => (st1, .threw "ws.send")
  | (st1, true) => persistMessage clk f senderRole message st1

/-- The result of `this.sessions.get(sessionId)`. -/
def sessionsGet (st : Mission_Chat) (sessionId : SessionId) : Option Session :=
  st.sessions.lookup sessionId

/-- The method `processMessage(sessionId, payload)` (lines 75-83). -/
def processMessage (clk : Nat → Nat) (f : Faults) (st : Mission_Chat)
    (sessionId : SessionId) (payload : JsVal) : Mission_Chat × Completion Unit :=
  match sessionsGet st sessionId with
  | none => (st, .returned ())
  | some session =>
    match payload.getProp "message" with
    | none => (st, .threw "TypeError")
    | some message => broadcastMessage clk f st (.str session.missionId) (.str session.role) message

/-- A `Response`: its status and body, and the client socket of an upgrade. -/
structure Response where
  status : Nat
  body : String
  webSocket : Option Conn
  deriving DecidableEq, Repr

/-- The text `JSON.stringify({ status: "sent" })`. -/
def sentBody : String := "\x7b\"status\":\"sent\"\x7d"

/-- The method `handleMessage(request)` (lines 60-73); `json` is what `request.json()`
resolves to, `none` when it rejects. -/
def handleMessage (clk : Nat → Nat) (f : Faults) (st : Mission_Chat)
    (json : Option JsVal) : Mission_Chat × Completion Response :=
  match json with
  | none => (st, .threw "SyntaxError")
  | some body =>
    match body.getProp "missionId", body.getProp "senderRole", body.getProp "message" with
    | some missionId, some senderRole, some message =>
      if !missionId.truthy || !senderRole.truthy || !message.truthy then
        (st, .returned ⟨400, "Invalid payload", none⟩)
      else
        match broadcastMessage clk f st missionId senderRole message with
        | (st1, .threw e) => (st1, .threw e)
        | (st1, .returned _) => (st1, .returned ⟨200, sentBody, none⟩)
    | _, _, _ => (st, .threw "TypeError")

/-- The effect of `this.sessions.set(key, value)`: an existing key keeps its place. -/
def sessionsSet (sessions : List (SessionId × Session)) (key : SessionId) (value : Session) :
    List (SessionId × Session) :=
  if sessions.any (fun e => e.1 == key) then
    sessions.map (fun e => if e.1 == key then (key, value) else e)
  else sessions ++ [(key, value)]

/-- The method `handleSession(ws, role, missionId)` (lines 39-58), for the identifier
`sessionId` returned by `crypto.randomUUID()`. The two listeners it installs are
`onMessage` and `onClose` below. -/
def handleSession (st : Mission_Chat) (sessionId : SessionId) (ws : Conn)
    (role missionId : String) : Mission_Chat :=
  { st with sessions := sessionsSet st.sessions sessionId ⟨ws, role, missionId⟩ }

/-- The `message` listener of lines 46-53, installed for `sessionId` and `ws`, on an
event whose `data` is the given text. It throws only when the `ws.send` of its `catch`
block throws. -/
def onMessage (jsonParse : String → Option JsVal) (clk : Nat → Nat) (f : Faults)
    (st : Mission_Chat) (sessionId : SessionId) (ws : Conn) (data : String) :
    Mission_Chat × Completion Unit :=
  let caught (st1 : Mission_Chat) : Mission_Chat × Completion Unit :=
    match wsSend f st1 ws (.error "Invalid message format") with
    | (st2, true) => (st2, .returned ())
    | (st2, false) => (st2, .threw "ws.send")
  match jsonParse data with
  | none => caught st
  | some payload =>
    match processMessage clk f st sessionId payload with
    | (st1, .returned _) => (st1, .returned ())
    | (st1, .threw _) => caught st1

/-- The `close` listener of lines 55-57: `this.sessions.delete(sessionId)`. -/
def onClose (st : Mission_Chat) (sessionId : SessionId) : Mission_Chat :=
  { st with sessions := st.sessions.filter (fun e => e.1 != sessionId) }

/-- What `fetch` reads of a request. -/
structure Request where
  upgrade : Option String
  xRole : Option String
  missionIdParam : Option String
  pathname : String
  method : String
  json : Option JsVal

/-- The test `!s` on the result of a header or query lookup. -/
def absent : Option String → Bool
  | none => true
  | some s => s == ""

/-- The method `fetch(request)` (lines 8-37). `sessionId` is the identifier that
`crypto.randomUUID()` would return, `client` and `server` the two ends of the
`WebSocketPair`. -/
def fetch (clk : Nat → Nat) (f : Faults) (st : Mission_Chat) (request : Request)
    (sessionId : SessionId) (client server : Conn) : Mission_Chat × Completion Response :=
  if request.upgrade == some "websocket" then
    if absent request.xRole || absent request.missionIdParam then
      (st, .returned ⟨400, "Missing role or missionId", none⟩)
    else
      let st1 := handleSession st sessionId server (request.xRole.getD "")
        (request.missionIdParam.getD "")
      (st1, .returned ⟨101, "", some client⟩)
  else if request.pathname == "/send" && request.method == "POST" then
    handleMessage clk f st request.json
  else (st, .returned ⟨404, "Not Found", none⟩)

/-! ## Vocabulary of the statements -/

/-- A session passes both guards of the loop (lines 89 and 101) for the given call. -/
def eligible (missionId senderRole : JsVal) (session : Session) : Bool :=
  missionId.strictEqStr session.missionId && allowed senderRole session.role

/-- The sessions among `entries` that pass both guards, in iteration order. -/
def recipients (missionId senderRole : JsVal) (entries : List (SessionId × Session)) :
    List Session :=
  (entries.map Prod.snd).filter (eligible missionId senderRole)

/-- The delivered envelopes of one call to the given sessions in turn, the first stamped
with the clock reading number `k`. -/
def envelopes (clk : Nat → Nat) (senderRole message : JsVal) : Nat → List Session → List SendEvent
  | _, [] => []
  | k, session :: rest =>
    ⟨session.ws, .envelope senderRole message (clk k), true⟩ ::
      envelopes clk senderRole message (k + 1) rest

/-- The `ws.send` calls made between the state `st` and the later state `st1`. -/
def newSends (st st1 : Mission_Chat) : List SendEvent :=
  st1.sendLog.drop st.sendLog.length

/-- The frames that the connection `ws` received among the given `ws.send` calls. -/
def framesTo (log : List SendEvent) (ws : Conn) : List Frame :=
  (log.filter (fun e => e.delivered && e.ws == ws)).map (fun e => e.frame)

/-- The stored history: what `storage.get("history") || []` evaluates to. -/
def Mission_Chat.history (st : Mission_Chat) : List HistoryEntry :=
  (st.storage.get "history").getD []

/-- The scenario of the specification: ICC-A, CLIENT-B and OPERATOR-C, all in mission
"m1", on the connections 1, 2 and 3. -/
def trioState : Mission_Chat :=
  { sessions := [("a", ⟨1, "ICC", "m1"⟩), ("b", ⟨2, "CLIENT", "m1"⟩),
      ("c", ⟨3, "OPERATOR", "m1"⟩)],
    storage := [], sendLog := [], clockReads := 0 }

/-- A clock that advances by one millisecond at every reading, from 1000. -/
def tickClock (k : Nat) : Nat := 1000 + k

/-- One call of the router as a caller issues it, with the faults met during it. -/
structure RouteCall where
  faults : Faults
  missionId : JsVal
  senderRole : JsVal
  message : JsVal

/-- Whether a completion is a normal return. -/
def Completion.isReturned {α : Type} : Completion α → Bool
  | .returned _ => true
  | .threw _ => false

/-- The calls of `broadcastMessage` made one after the other; the flag tells whether
every one of them returned. -/
def routeAll (clk : Nat → Nat) : Mission_Chat → List RouteCall → Mission_Chat × Bool
  | st, [] => (st, true)
  | st, c :: rest =>
    let r := broadcastMessage clk c.faults st c.missionId c.senderRole c.message
    let rs := routeAll clk r.1 rest
    (rs.1, r.2.isReturned && rs.2)

/-- The history entries of the given calls, stamped with the given readings. -/
def entriesOf (calls : List RouteCall) (stamps : List Nat) : List HistoryEntry :=
  List.zipWith (fun c t => ⟨c.senderRole, c.message, t⟩) calls stamps

/-- Two fault-free calls for mission "m1": "one" from ICC, then "two" from CLIENT. -/
def twoCalls : List RouteCall :=
  [⟨Faults.none, .str "m1", .str "ICC", .str "one"⟩,
   ⟨Faults.none, .str "m1", .str "CLIENT", .str "two"⟩]

/-- The faults of a call in which exactly the sends to the connection `ws` throw. -/
def failOn (ws : Conn) : Faults :=
  { sendFails := fun c => c == ws, getFails := false, putFails := false }

/-- What can happen to the object: a request arrives (with the identifier and the socket
pair it would be given), a frame arrives on the socket of a session, a socket closes. -/
inductive Event where
  | request (f : Faults) (request : Request) (sessionId : SessionId) (client server : Conn) : Event
  | frame (f : Faults) (sessionId : SessionId) (ws : Conn) (data : String) : Event
  | close (sessionId : SessionId) : Event

/-- The state after one event. -/
def step (jsonParse : String → Option JsVal) (clk : Nat → Nat) (st : Mission_Chat) :
    Event → Mission_Chat
  | .request f request sessionId client server => (fetch clk f st request sessionId client server).1
  | .frame f sessionId ws data => (onMessage jsonParse clk f st sessionId ws data).1
  | .close sessionId => onClose st sessionId

/-- The state after a sequence of events. -/
def run (jsonParse : String → Option JsVal) (clk : Nat → Nat) (st : Mission_Chat)
    (events : List Event) : Mission_Chat :=
  events.foldl (step jsonParse clk) st

/-- The text of the frame `{"message":"go"}`. -/
def goFrame : String := "\x7b\"message\":\"go\"\x7d"

/-- A stand-in for `JSON.parse` that decodes the text `goFrame` as `JSON.parse` does and
rejects every other text. -/
def sampleParse (data : String) : Option JsVal :=
  if data = goFrame then some (.obj [("message", .str "go")]) else none

/-- An upgrade request asserting the role "ADMIN" for mission "m1". -/
def adminRequest : Request :=
  { upgrade := some "websocket", xRole := some "ADMIN", missionIdParam := some "m1",
    pathname := "/", method := "GET", json := none }

/-- An upgrade request for mission "m1" without the `x-role` header. -/
def noRoleRequest : Request :=
  { upgrade := some "websocket", xRole := none, missionIdParam := some "m1",
    pathname := "/", method := "GET", json := none }

/-- An out-of-band submission body without the `message` field. -/
def noMessageBody : JsVal :=
  .obj [("missionId", .str "m1"), ("senderRole", .str "ICC")]

/-- An out-of-band submission for mission "m1" from ICC whose message is the given value. -/
def submission (message : JsVal) : JsVal :=
  .obj [("missionId", .str "m1"), ("senderRole", .str "ICC"), ("message", message)]

/-- The faults of a call in which `storage.put` throws and nothing else does. -/
def putFault : Faults :=
  { sendFails := fun _ => false, getFails := false, putFails := true }

/-- The faults of a call in which `storage.get` throws and nothing else does. -/
def getFault : Faults :=
  { sendFails := fun _ => false, getFails := true, putFails := false }

/-- One call `handleSession(ws, role, missionId)` with the identifier it generates. -/
structure Registration where
  sessionId : SessionId
  ws : Conn
  role : String
  missionId : String

/-- The registry entry that a registration stores. -/
def Registration.entry (r : Registration) : SessionId × Session :=
  (r.sessionId, ⟨r.ws, r.role, r.missionId⟩)

/-- The calls of `handleSession` made one after the other. -/
def registerAll : Mission_Chat → List Registration → Mission_Chat
  | st, [] => st
  | st, r :: rest => registerAll (handleSession st r.sessionId r.ws r.role r.missionId) rest

/-- The registry entries that pass the mission guard of line 89 for `missionId`. -/
def sessionsOfMission (st : Mission_Chat) (missionId : JsVal) : List (SessionId × Session) :=
  st.sessions.filter (fun e => missionId.strictEqStr e.2.missionId)

/-- Three registrations across the missions "m1" and "m2". -/
def threeRegistrations : List Registration :=
  [⟨"a", 1, "ICC", "m1"⟩, ⟨"x", 7, "CLIENT", "m2"⟩, ⟨"b", 2, "CLIENT", "m1"⟩]

/-- Later events of the scenario: a new session "d" is opened on the fresh socket 5,
then A sends the frame `goFrame`. -/
def laterEvents : List Event :=
  [.request Faults.none
      { upgrade := some "websocket", xRole := some "OPERATOR", missionIdParam := some "m1",
        pathname := "/", method := "GET", json := none } "d" 4 5,
   .frame Faults.none "a" 1 goFrame]

/-- The timestamps of the stored history, in list order. -/
def Mission_Chat.stamps (st : Mission_Chat) : List Nat :=
  st.history.map HistoryEntry.timestamp

/-- The invariant behind the ordering of timestamps: the stored timestamps are
non-decreasing in list order and none exceeds the next reading of the clock. -/
def historyOrdered (clk : Nat → Nat) (st : Mission_Chat) : Prop :=
  st.stamps.Pairwise (fun a b => a ≤ b) ∧ ∀ t ∈ st.stamps, t ≤ clk st.clockReads

/-- Modelled from the spec: the partition of the system by mission, which is missing
from src/ (the worker entry point of lines 122-126 dispatches nothing to the class).
After section 5, "single logical actor per mission-group process", and section 6, "a
fixed storage key scoped to the mission's storage partition", every mission id has its
own `Mission_Chat` object, with its own registry and its own storage. -/
structure Deployment where
  objectOf : String → Mission_Chat

/-- Modelled from the spec: the replacement of the object of one mission, the objects of
all other missions being kept; the mechanism itself is missing from src/. -/
def Deployment.setObject (d : Deployment) (missionId : String) (st : Mission_Chat) : Deployment :=
  ⟨fun m => if m = missionId then st else d.objectOf m⟩

/-- Modelled from the spec: the dispatch of a router call, which is missing from src/:
`route(missionId, senderRole, message)` of section 4.4 runs `broadcastMessage` on the
object of `missionId`, and no other object takes part. -/
def Deployment.route (clk : Nat → Nat) (f : Faults) (d : Deployment) (missionId : String)
    (senderRole message : JsVal) : Deployment × Completion Unit :=
  let r := broadcastMessage clk f (d.objectOf missionId) (.str missionId) senderRole message
  (d.setObject missionId r.1, r.2)

/-- Modelled from the spec: the dispatch of an out-of-band submission addressed to the
mission `missionId`, which is missing from src/: `handleMessage` runs on the object of
that mission, and no other object takes part. -/
def Deployment.submit (clk : Nat → Nat) (f : Faults) (d : Deployment) (missionId : String)
    (json : Option JsVal) : Deployment × Completion Response :=
  let r := handleMessage clk f (d.objectOf missionId) json
  (d.setObject missionId r.1, r.2)

/-- The history of a mission: the stored history of the object of that mission. -/
def Deployment.history (d : Deployment) (missionId : String) : List HistoryEntry :=
  (d.objectOf missionId).history

/-- One router call as a caller of the deployment issues it. -/
structure MissionCall where
  faults : Faults
  missionId : String
  senderRole : JsVal
  message : JsVal

/-- The call as the object of its mission receives it. -/
def MissionCall.toRouteCall (c : MissionCall) : RouteCall :=
  ⟨c.faults, .str c.missionId, c.senderRole, c.message⟩

/-- The router calls of a deployment made one after the other. -/
def Deployment.routeAll (clk : Nat → Nat) : Deployment → List MissionCall → Deployment
  | d, [] => d
  | d, c :: rest =>
    Deployment.routeAll clk (d.route clk c.faults c.missionId c.senderRole c.message).1 rest

/-- The calls among `calls` that are made for the mission `missionId`, as its object
receives them. -/
def callsFor (missionId : String) (calls : List MissionCall) : List RouteCall :=
  (calls.filter (fun c => c.missionId == missionId)).map MissionCall.toRouteCall

/-- A deployment in which every object is freshly constructed. -/
def freshDeployment : Deployment :=
  ⟨fun _ => Mission_Chat.init⟩

/-- Three fault-free calls: "one" for "m1", "two" for "m2", "three" for "m1". -/
def mixedCalls : List MissionCall :=
  [⟨Faults.none, "m1", .str "ICC", .str "one"⟩,
   ⟨Faults.none, "m2", .str "ICC", .str "two"⟩,
   ⟨Faults.none, "m1", .str "CLIENT", .str "three"⟩]

/-! ## General lemmas -/

theorem broadcastLoop_no_fault (clk : Nat → Nat) (f : Faults) (missionId senderRole message : JsVal)
    (hf : ∀ ws, f.sendFails ws = false) :
    ∀ (l : List (SessionId × Session)) (st : Mission_Chat),
      broadcastLoop clk f missionId senderRole message l st =
        ({ st with
            sendLog := st.sendLog ++
              envelopes clk senderRole message st.clockReads (recipients missionId senderRole l)
            clockReads := st.clockReads + (recipients missionId senderRole l).length }, true) := by
  intro l
  induction l with
  | nil => intro st; simp [broadcastLoop, recipients, envelopes]
  | cons e rest ih =>
    intro st
    obtain ⟨id, session⟩ := e
    by_cases h1 : missionId.strictEqStr session.missionId = true
    · by_cases h2 : allowed senderRole session.role = true
      · have he : eligible missionId senderRole session = true := by simp [eligible, h1, h2]
        simp only [broadcastLoop, h1, h2, dateNow, wsSend, hf, Bool.not_true, Bool.not_false,
          Bool.false_eq_true, if_false, if_true, ih]
        simp [recipients, List.filter_cons, he, envelopes, Nat.add_assoc, Nat.add_comm 1]
      · have he : eligible missionId senderRole session = false := by simp [eligible, h2]
        simp only [broadcastLoop, h1, h2, Bool.not_true, Bool.not_false, Bool.false_eq_true,
          if_false, if_true, ih]
        simp [recipients, List.filter_cons, he]
    · have he : eligible missionId senderRole session = false := by simp [eligible, h1]
      simp only [broadcastLoop, h1, Bool.not_false, if_true, ih]
      simp [recipients, List.filter_cons, he]

theorem persistMessage_sendLog (clk : Nat → Nat) (f : Faults) (senderRole message : JsVal)
    (st : Mission_Chat) :
    (persistMessage clk f senderRole message st).1.sendLog = st.sendLog ∧
    (persistMessage clk f senderRole message st).1.sessions = st.sessions := by
  unfold persistMessage dateNow
  by_cases hg : f.getFails = true
  · simp [hg]
  · by_cases hp : f.putFails = true
    · simp [hg, hp]
    · simp [hg, hp]

theorem broadcastMessage_newSends (clk : Nat → Nat) (f : Faults) (st : Mission_Chat)
    (missionId senderRole message : JsVal) (hf : ∀ ws, f.sendFails ws = false) :
    newSends st (broadcastMessage clk f st missionId senderRole message).1 =
      envelopes clk senderRole message st.clockReads
        (recipients missionId senderRole st.sessions) := by
  unfold broadcastMessage newSends
  rw [broadcastLoop_no_fault clk f missionId senderRole message hf]
  simp only []
  rw [(persistMessage_sendLog clk f senderRole message _).1]
  simp

theorem framesTo_envelopes_of_not_mem (clk : Nat → Nat) (senderRole message : JsVal) (ws : Conn) :
    ∀ (rs : List Session) (k : Nat), ws ∉ rs.map Session.ws →
      framesTo (envelopes clk senderRole message k rs) ws = [] := by
  intro rs
  induction rs with
  | nil => intro k _; rfl
  | cons r rest ih =>
    intro k h
    simp only [List.map_cons, List.mem_cons, not_or] at h
    have h1 : (r.ws == ws) = false := by
      simp only [beq_eq_false_iff_ne, ne_eq]
      exact fun e => h.1 e.symm
    have := ih (k + 1) h.2
    simp only [framesTo] at this ⊢
    simp [envelopes, List.filter_cons, h1, this]

theorem framesTo_envelopes_of_mem (clk : Nat → Nat) (senderRole message : JsVal) :
    ∀ (rs : List Session) (k : Nat), (rs.map Session.ws).Nodup → ∀ r ∈ rs,
      ∃ t, framesTo (envelopes clk senderRole message k rs) r.ws =
        [.envelope senderRole message t] := by
  intro rs
  induction rs with
  | nil => intro k _ r hr; cases hr
  | cons r0 rest ih =>
    intro k hnd r hr
    simp only [List.map_cons, List.nodup_cons] at hnd
    rcases List.mem_cons.1 hr with rfl | hmem
    · refine ⟨clk k, ?_⟩
      have := framesTo_envelopes_of_not_mem clk senderRole message r.ws rest (k + 1) hnd.1
      simp only [framesTo] at this ⊢
      simp [envelopes, List.filter_cons, this]
    · obtain ⟨t, ht⟩ := ih (k + 1) hnd.2 r hmem
      refine ⟨t, ?_⟩
      have hne : (r0.ws == r.ws) = false := by
        simp only [beq_eq_false_iff_ne, ne_eq]
        intro e
        exact hnd.1 (e ▸ List.mem_map_of_mem Session.ws hmem)
      simp only [framesTo] at ht ⊢
      simp [envelopes, List.filter_cons, hne, ht]

theorem mem_recipients {missionId senderRole : JsVal} {l : List (SessionId × Session)}
    {r : Session} :
    r ∈ recipients missionId senderRole l ↔
      (∃ e ∈ l, e.2 = r) ∧ eligible missionId senderRole r = true := by
  simp [recipients, List.mem_filter]

theorem recipients_ws_nodup {missionId senderRole : JsVal} {l : List (SessionId × Session)}
    (h : (l.map (fun e => e.2.ws)).Nodup) :
    ((recipients missionId senderRole l).map Session.ws).Nodup := by
  have hsub : List.Sublist ((recipients missionId senderRole l).map Session.ws)
      ((l.map Prod.snd).map Session.ws) :=
    List.Sublist.map _ (List.filter_sublist _)
  have heq : (l.map Prod.snd).map Session.ws = l.map (fun e => e.2.ws) := by
    simp [List.map_map, Function.comp_def]
  rw [heq] at hsub
  exact h.sublist hsub

theorem mem_envelopes {clk : Nat → Nat} {senderRole message : JsVal} {ev : SendEvent} :
    ∀ {rs : List Session} {k : Nat}, ev ∈ envelopes clk senderRole message k rs →
      ∃ r ∈ rs, ev.ws = r.ws ∧ ev.delivered = true := by
  intro rs
  induction rs with
  | nil => intro k h; cases h
  | cons r rest ih =>
    intro k h
    simp only [envelopes, List.mem_cons] at h
    rcases h with rfl | h
    · exact ⟨r, List.mem_cons_self _ _, rfl, rfl⟩
    · obtain ⟨r1, hr1, h1⟩ := ih h
      exact ⟨r1, List.mem_cons_of_mem _ hr1, h1⟩

theorem eligible_iff {missionId senderRole : JsVal} {session : Session} :
    eligible missionId senderRole session = true ↔
      missionId = .str session.missionId ∧ allowed senderRole session.role = true := by
  unfold eligible
  cases missionId <;> simp [JsVal.strictEqStr]

theorem broadcastLoop_frame (clk : Nat → Nat) (f : Faults) (missionId senderRole message : JsVal) :
    ∀ (l : List (SessionId × Session)) (st : Mission_Chat),
      (broadcastLoop clk f missionId senderRole message l st).1.storage = st.storage ∧
      (broadcastLoop clk f missionId senderRole message l st).1.sessions = st.sessions := by
  intro l
  induction l with
  | nil => intro st; simp [broadcastLoop]
  | cons e rest ih =>
    intro st
    obtain ⟨id, session⟩ := e
    by_cases h1 : missionId.strictEqStr session.missionId = true
    · by_cases h2 : allowed senderRole session.role = true
      · by_cases h3 : f.sendFails session.ws = true
        · simp [broadcastLoop, h1, h2, h3, dateNow, wsSend]
        · simp only [broadcastLoop, h1, h2, h3, dateNow, wsSend, Bool.not_true, Bool.not_false,
            Bool.false_eq_true, if_false, if_true]
          exact ih _
      · simp only [broadcastLoop, h1, h2, Bool.not_true, Bool.not_false, Bool.false_eq_true,
          if_false, if_true]
        exact ih _
    · simp only [broadcastLoop, h1, Bool.not_false, if_true]
      exact ih _

theorem persistMessage_returned {clk : Nat → Nat} {f : Faults} {senderRole message : JsVal}
    {st st1 : Mission_Chat} {u : Unit}
    (h : persistMessage clk f senderRole message st = (st1, .returned u)) :
    st1.storage = st.storage.put "history"
      (st.history ++ [⟨senderRole, message, clk st.clockReads⟩]) := by
  unfold persistMessage dateNow at h
  by_cases hg : f.getFails = true
  · simp [hg] at h
  · by_cases hp : f.putFails = true
    · simp [hg, hp] at h
    · simp only [hg, hp, Bool.false_eq_true, if_false, Prod.mk.injEq] at h
      rw [← h.1]
      rfl

theorem persistMessage_threw {clk : Nat → Nat} {f : Faults} {senderRole message : JsVal}
    {st st1 : Mission_Chat} {e : String}
    (h : persistMessage clk f senderRole message st = (st1, .threw e)) :
    st1.storage = st.storage := by
  unfold persistMessage dateNow at h
  by_cases hg : f.getFails = true
  · simp only [hg, if_true, Prod.mk.injEq] at h
    rw [← h.1]
  · by_cases hp : f.putFails = true
    · simp only [hg, hp, Bool.false_eq_true, if_false, if_true, Prod.mk.injEq] at h
      rw [← h.1]
    · simp [hg, hp] at h

theorem storage_get_put (s : Storage) (key : String) (value : List HistoryEntry) :
    (s.put key value).get key = some value := by
  simp [Storage.put, Storage.get, List.lookup]

theorem storage_get_put_ne (s : Storage) (key k : String) (value : List HistoryEntry)
    (h : k ≠ key) : (s.put key value).get k = s.get k := by
  have : (k == key) = false := by simpa using h
  simp [Storage.put, Storage.get, List.lookup, this]

/-- A returning call of the router stores the old history followed by one new entry. -/
theorem broadcastMessage_returned {clk : Nat → Nat} {f : Faults} {st st1 : Mission_Chat}
    {missionId senderRole message : JsVal} {u : Unit}
    (h : broadcastMessage clk f st missionId senderRole message = (st1, .returned u)) :
    ∃ t, st1.storage = st.storage.put "history" (st.history ++ [⟨senderRole, message, t⟩]) := by
  unfold broadcastMessage at h
  have hfr := broadcastLoop_frame clk f missionId senderRole message st.sessions st
  generalize broadcastLoop clk f missionId senderRole message st.sessions st = r at h hfr
  obtain ⟨st2, b⟩ := r
  cases b with
  | false => simp at h
  | true =>
    simp only at h hfr
    have := persistMessage_returned h
    refine ⟨clk st2.clockReads, ?_⟩
    rw [this, Mission_Chat.history, Mission_Chat.history, hfr.1]

/-- A throwing call of the router leaves the storage as it was. -/
theorem broadcastMessage_threw {clk : Nat → Nat} {f : Faults} {st st1 : Mission_Chat}
    {missionId senderRole message : JsVal} {e : String}
    (h : broadcastMessage clk f st missionId senderRole message = (st1, .threw e)) :
    st1.storage = st.storage := by
  unfold broadcastMessage at h
  have hfr := broadcastLoop_frame clk f missionId senderRole message st.sessions st
  generalize broadcastLoop clk f missionId senderRole message st.sessions st = r at h hfr
  obtain ⟨st2, b⟩ := r
  cases b with
  | false =>
    simp only [Prod.mk.injEq] at h
    rw [← h.1]; exact hfr.1
  | true =>
    simp only at h hfr
    rw [persistMessage_threw h, hfr.1]

theorem history_of_put (st : Mission_Chat) (s : Storage) (value : List HistoryEntry)
    (h : st.storage = s.put "history" value) : st.history = value := by
  simp [Mission_Chat.history, h, storage_get_put]

theorem broadcastLoop_prefix (clk : Nat → Nat) (f : Faults) (missionId senderRole message : JsVal)
    (rest : List (SessionId × Session)) :
    ∀ (pre : List (SessionId × Session)) (st : Mission_Chat),
      (∀ r ∈ recipients missionId senderRole pre, f.sendFails r.ws = false) →
      broadcastLoop clk f missionId senderRole message (pre ++ rest) st =
        broadcastLoop clk f missionId senderRole message rest
          { st with
            sendLog := st.sendLog ++
              envelopes clk senderRole message st.clockReads (recipients missionId senderRole pre)
            clockReads := st.clockReads + (recipients missionId senderRole pre).length } := by
  intro pre
  induction pre with
  | nil => intro st _; simp [recipients, envelopes]
  | cons e pre ih =>
    intro st hpre
    obtain ⟨id, session⟩ := e
    by_cases he : eligible missionId senderRole session = true
    · have hrec : recipients missionId senderRole ((id, session) :: pre) =
          session :: recipients missionId senderRole pre := by
        simp [recipients, List.filter_cons, he]
      have hok : f.sendFails session.ws = false := hpre session (by simp [hrec])
      have hpre2 : ∀ r ∈ recipients missionId senderRole pre, f.sendFails r.ws = false :=
        fun r hr => hpre r (by simp [hrec, hr])
      obtain ⟨h1, h2⟩ := Bool.and_eq_true_iff.1 he
      simp only [List.cons_append, broadcastLoop, h1, h2, hok, dateNow, wsSend, Bool.not_true,
        Bool.not_false, Bool.false_eq_true, if_false, if_true, hrec, List.append_eq]
      rw [ih _ hpre2]
      simp [envelopes, Nat.add_assoc, Nat.add_comm 1]
    · have he2 : eligible missionId senderRole session = false := by simpa using he
      have hrec : recipients missionId senderRole ((id, session) :: pre) =
          recipients missionId senderRole pre := by
        simp [recipients, List.filter_cons, he2]
      have hpre2 : ∀ r ∈ recipients missionId senderRole pre, f.sendFails r.ws = false :=
        fun r hr => hpre r (by simp [hrec, hr])
      rw [hrec, ← ih st hpre2]
      by_cases h1 : missionId.strictEqStr session.missionId = true
      · have h2 : allowed senderRole session.role = false := by
          simpa [eligible, h1] using he2
        simp [broadcastLoop, h1, h2]
      · simp [broadcastLoop, h1]

theorem broadcastMessage_sessions (clk : Nat → Nat) (f : Faults) (st : Mission_Chat)
    (missionId senderRole message : JsVal) :
    (broadcastMessage clk f st missionId senderRole message).1.sessions = st.sessions := by
  unfold broadcastMessage
  have hfr := broadcastLoop_frame clk f missionId senderRole message st.sessions st
  generalize broadcastLoop clk f missionId senderRole message st.sessions st = r at hfr
  obtain ⟨st2, b⟩ := r
  cases b with
  | false => exact hfr.2
  | true =>
    simp only at hfr ⊢
    rw [(persistMessage_sendLog clk f senderRole message st2).2, hfr.2]

theorem processMessage_sessions (clk : Nat → Nat) (f : Faults) (st : Mission_Chat)
    (sessionId : SessionId) (payload : JsVal) :
    (processMessage clk f st sessionId payload).1.sessions = st.sessions := by
  unfold processMessage
  cases sessionsGet st sessionId with
  | none => rfl
  | some session =>
    cases payload.getProp "message" with
    | none => rfl
    | some message => exact broadcastMessage_sessions clk f st _ _ _

theorem handleMessage_sessions (clk : Nat → Nat) (f : Faults) (st : Mission_Chat)
    (json : Option JsVal) :
    (handleMessage clk f st json).1.sessions = st.sessions := by
  unfold handleMessage
  cases json with
  | none => rfl
  | some body =>
    simp only
    cases body.getProp "missionId" with
    | none => rfl
    | some missionId =>
      cases body.getProp "senderRole" with
      | none => rfl
      | some senderRole =>
        cases body.getProp "message" with
        | none => rfl
        | some message =>
          simp only
          split
          · rfl
          · have := broadcastMessage_sessions clk f st missionId senderRole message
            generalize broadcastMessage clk f st missionId senderRole message = r at this
            obtain ⟨st1, c⟩ := r
            cases c <;> exact this

theorem onMessage_sessions (jsonParse : String → Option JsVal) (clk : Nat → Nat) (f : Faults)
    (st : Mission_Chat) (sessionId : SessionId) (ws : Conn) (data : String) :
    (onMessage jsonParse clk f st sessionId ws data).1.sessions = st.sessions := by
  unfold onMessage
  cases jsonParse data with
  | none =>
    simp only [wsSend]
    cases f.sendFails ws <;> rfl
  | some payload =>
    have := processMessage_sessions clk f st sessionId payload
    simp only [wsSend]
    generalize processMessage clk f st sessionId payload = r at this ⊢
    obtain ⟨st1, c⟩ := r
    cases c with
    | returned u => exact this
    | threw e => cases f.sendFails ws <;> exact this

theorem mem_sessionsSet {sessions : List (SessionId × Session)} {key : SessionId}
    {value : Session} {e : SessionId × Session} (h : e ∈ sessionsSet sessions key value) :
    e ∈ sessions ∨ e = (key, value) := by
  unfold sessionsSet at h
  split at h
  · obtain ⟨e0, he0, rfl⟩ := List.mem_map.1 h
    by_cases hk : (e0.1 == key) = true
    · simp [hk]
    · simp [hk, he0]
  · rcases List.mem_append.1 h with h | h
    · exact Or.inl h
    · exact Or.inr (by simpa using h)

theorem step_sessions_mem (jsonParse : String → Option JsVal) (clk : Nat → Nat)
    (st : Mission_Chat) (ev : Event) (e : SessionId × Session)
    (h : e ∈ (step jsonParse clk st ev).sessions) :
    e ∈ st.sessions ∨ (e.2.role ≠ "" ∧ e.2.missionId ≠ "") := by
  cases ev with
  | request f request sessionId client server =>
    simp only [step, fetch] at h
    split at h
    · split at h
      · exact Or.inl h
      · rename_i hpres
        simp only [Bool.or_eq_true, not_or] at hpres
        rcases mem_sessionsSet h with h1 | h1
        · exact Or.inl h1
        · right
          rw [h1]
          obtain ⟨hr, hm⟩ := hpres
          cases hx : request.xRole with
          | none => simp [hx, absent] at hr
          | some role =>
            cases hy : request.missionIdParam with
            | none => simp [hy, absent] at hm
            | some m =>
              simp only [hx, hy, absent, beq_iff_eq] at hr hm
              exact ⟨by simpa using hr, by simpa using hm⟩
    · split at h
      · rw [handleMessage_sessions] at h
        exact Or.inl h
      · exact Or.inl h
  | frame f sessionId ws data =>
    simp only [step] at h
    rw [onMessage_sessions] at h
    exact Or.inl h
  | close sessionId =>
    simp only [step, onClose] at h
    exact Or.inl (List.mem_filter.1 h).1

theorem run_sessions_presence (jsonParse : String → Option JsVal) (clk : Nat → Nat) :
    ∀ (events : List Event) (st : Mission_Chat),
      (∀ e ∈ st.sessions, e.2.role ≠ "" ∧ e.2.missionId ≠ "") →
      ∀ e ∈ (run jsonParse clk st events).sessions, e.2.role ≠ "" ∧ e.2.missionId ≠ "" := by
  intro events
  induction events with
  | nil => intro st h; exact h
  | cons ev rest ih =>
    intro st h
    apply ih
    intro e he
    rcases step_sessions_mem jsonParse clk st ev e he with h1 | h1
    · exact h e h1
    · exact h1

theorem lookup_replace (key : SessionId) (value : Session) :
    ∀ (l : List (SessionId × Session)), (l.any (fun e => e.1 == key)) = true →
      List.lookup key (l.map (fun e => if e.1 == key then (key, value) else e)) = some value := by
  intro l
  induction l with
  | nil => intro h; simp at h
  | cons e rest ih =>
    intro hany
    obtain ⟨k, v⟩ := e
    by_cases hk : k = key
    · subst hk
      simp only [List.map_cons, beq_self_eq_true, if_true]
      simp [List.lookup_cons]
    · have hk2 : (k == key) = false := by simpa using hk
      have hk3 : (key == k) = false := by simpa using fun h : key = k => hk h.symm
      simp only [List.any_cons, hk2, Bool.false_or] at hany
      simp only [List.map_cons, hk2, Bool.false_eq_true, if_false]
      rw [List.lookup_cons, hk3]
      exact ih hany

theorem lookup_append_new (key : SessionId) (value : Session) :
    ∀ (l : List (SessionId × Session)), (l.any (fun e => e.1 == key)) = false →
      List.lookup key (l ++ [(key, value)]) = some value := by
  intro l
  induction l with
  | nil => intro _; simp [List.lookup_cons]
  | cons e rest ih =>
    intro hany
    obtain ⟨k, v⟩ := e
    simp only [List.any_cons, Bool.or_eq_false_iff] at hany
    have hk3 : (key == k) = false := by
      have h1 : k ≠ key := by simpa using hany.1
      simpa using fun h : key = k => h1 h.symm
    rw [List.cons_append, List.lookup_cons, hk3]
    exact ih hany.2

theorem sessionsGet_handleSession (st : Mission_Chat) (sessionId : SessionId) (ws : Conn)
    (role missionId : String) :
    sessionsGet (handleSession st sessionId ws role missionId) sessionId =
      some ⟨ws, role, missionId⟩ := by
  simp only [sessionsGet, handleSession, sessionsSet]
  split
  · rename_i hany
    exact lookup_replace _ _ _ hany
  · rename_i hany
    exact lookup_append_new _ _ _ (Bool.eq_false_iff.2 hany)

/-- With no fault at all, the router returns, having sent one envelope to each eligible
session and stored the history extended by one entry. -/
theorem broadcastMessage_no_fault (clk : Nat → Nat) (f : Faults) (st : Mission_Chat)
    (missionId senderRole message : JsVal)
    (hf : ∀ ws, f.sendFails ws = false) (hg : f.getFails = false) (hp : f.putFails = false) :
    broadcastMessage clk f st missionId senderRole message =
      ({ sessions := st.sessions
         storage := st.storage.put "history" (st.history ++ [⟨senderRole, message,
           clk (st.clockReads + (recipients missionId senderRole st.sessions).length)⟩])
         sendLog := st.sendLog ++ envelopes clk senderRole message st.clockReads
           (recipients missionId senderRole st.sessions)
         clockReads := st.clockReads + (recipients missionId senderRole st.sessions).length + 1 },
        .returned ()) := by
  unfold broadcastMessage
  rw [broadcastLoop_no_fault clk f missionId senderRole message hf]
  simp [persistMessage, dateNow, hg, hp, Mission_Chat.history]

/-- The shape of `handleMessage` on a body whose three fields can be read and are truthy. -/
theorem handleMessage_valid (clk : Nat → Nat) (f : Faults) (st : Mission_Chat)
    (body missionId senderRole message : JsVal)
    (h1 : body.getProp "missionId" = some missionId)
    (h2 : body.getProp "senderRole" = some senderRole)
    (h3 : body.getProp "message" = some message)
    (t1 : missionId.truthy = true) (t2 : senderRole.truthy = true) (t3 : message.truthy = true) :
    handleMessage clk f st (some body) =
      match broadcastMessage clk f st missionId senderRole message with
      | (st1, .threw e) => (st1, .threw e)
      | (st1, .returned _) => (st1, .returned ⟨200, sentBody, none⟩) := by
  unfold handleMessage
  simp [h1, h2, h3, t1, t2, t3]

/-- A returning `handleMessage` answers 400 on the unchanged state, or 200 after a
returning router call on the three fields of the body, all truthy. -/
theorem handleMessage_returned (clk : Nat → Nat) (f : Faults) (st st1 : Mission_Chat)
    (json : Option JsVal) (resp : Response)
    (h : handleMessage clk f st json = (st1, .returned resp)) :
    (st1 = st ∧ resp = ⟨400, "Invalid payload", none⟩) ∨
    (resp = ⟨200, sentBody, none⟩ ∧
      ∃ body missionId senderRole message u, json = some body ∧
        body.getProp "missionId" = some missionId ∧
        body.getProp "senderRole" = some senderRole ∧
        body.getProp "message" = some message ∧
        missionId.truthy = true ∧ senderRole.truthy = true ∧ message.truthy = true ∧
        broadcastMessage clk f st missionId senderRole message = (st1, .returned u)) := by
  unfold handleMessage at h
  cases json with
  | none => simp at h
  | some body =>
    simp only at h
    cases h1 : body.getProp "missionId" with
    | none => simp [h1] at h
    | some missionId =>
      cases h2 : body.getProp "senderRole" with
      | none => simp [h1, h2] at h
      | some senderRole =>
        cases h3 : body.getProp "message" with
        | none => simp [h1, h2, h3] at h
        | some message =>
          simp only [h1, h2, h3] at h
          split at h
          · left
            simp only [Prod.mk.injEq, Completion.returned.injEq] at h
            exact ⟨h.1.symm, h.2.symm⟩
          · rename_i hval
            simp only [Bool.or_eq_true, Bool.not_eq_true', not_or, Bool.not_eq_false] at hval
            right
            generalize hr : broadcastMessage clk f st missionId senderRole message = r at h
            obtain ⟨st2, c⟩ := r
            cases c with
            | threw e => simp at h
            | returned u =>
              simp only [Prod.mk.injEq, Completion.returned.injEq] at h
              refine ⟨h.2.symm, body, missionId, senderRole, message, u, rfl, h1, h2, h3,
                hval.1.1, hval.1.2, hval.2, ?_⟩
              rw [← h.1]
              exact hr

/-- A returning router call has met no storage fault. -/
theorem broadcastMessage_returned_faults {clk : Nat → Nat} {f : Faults} {st st1 : Mission_Chat}
    {missionId senderRole message : JsVal} {u : Unit}
    (h : broadcastMessage clk f st missionId senderRole message = (st1, .returned u)) :
    f.getFails = false ∧ f.putFails = false := by
  unfold broadcastMessage at h
  generalize broadcastLoop clk f missionId senderRole message st.sessions st = r at h
  obtain ⟨st2, b⟩ := r
  cases b with
  | false => simp at h
  | true =>
    simp only [persistMessage, dateNow] at h
    cases hg : f.getFails with
    | true => simp [hg] at h
    | false =>
      cases hp : f.putFails with
      | true => simp [hg, hp] at h
      | false => exact ⟨rfl, rfl⟩

/-- A router call that meets a storage fault throws. -/
theorem broadcastMessage_storage_fault (clk : Nat → Nat) (f : Faults) (st : Mission_Chat)
    (missionId senderRole message : JsVal) (h : f.getFails = true ∨ f.putFails = true) :
    ∃ e, (broadcastMessage clk f st missionId senderRole message).2 = .threw e := by
  generalize hr : broadcastMessage clk f st missionId senderRole message = r
  obtain ⟨st1, c⟩ := r
  cases c with
  | threw e => exact ⟨e, rfl⟩
  | returned u =>
    obtain ⟨hg, hp⟩ := broadcastMessage_returned_faults hr
    rcases h with h | h
    · rw [hg] at h; cases h
    · rw [hp] at h; cases h

theorem sessionsGet_none_iff (st : Mission_Chat) (key : SessionId) :
    sessionsGet st key = none ↔ (st.sessions.any (fun e => e.1 == key)) = false := by
  simp only [sessionsGet, List.lookup_eq_none_iff, List.any_eq_false, bne_iff_ne, ne_eq,
    beq_iff_eq]
  constructor
  · intro h e he heq
    exact h e he heq.symm
  · intro h e he heq
    exact h e he heq.symm

/-- Registration under a fresh identifier appends the entry. -/
theorem handleSession_fresh (st : Mission_Chat) (sessionId : SessionId) (ws : Conn)
    (role missionId : String) (h : sessionsGet st sessionId = none) :
    handleSession st sessionId ws role missionId =
      { st with sessions := st.sessions ++ [(sessionId, ⟨ws, role, missionId⟩)] } := by
  have := (sessionsGet_none_iff st sessionId).1 h
  simp [handleSession, sessionsSet, this]

theorem registerAll_fresh :
    ∀ (regs : List Registration) (st : Mission_Chat),
      (∀ r ∈ regs, sessionsGet st r.sessionId = none) →
      (regs.map Registration.sessionId).Nodup →
      registerAll st regs =
        { st with sessions := st.sessions ++ regs.map Registration.entry } := by
  intro regs
  induction regs with
  | nil => intro st _ _; simp [registerAll]
  | cons r rest ih =>
    intro st hfresh hnd
    simp only [List.map_cons, List.nodup_cons] at hnd
    rw [registerAll, handleSession_fresh st _ _ _ _ (hfresh r (List.mem_cons_self _ _))]
    rw [ih]
    · simp [Registration.entry]
    · intro r2 hr2
      have h2 := hfresh r2 (List.mem_cons_of_mem _ hr2)
      have hne : r2.sessionId ≠ r.sessionId := by
        intro heq
        exact hnd.1 (heq ▸ List.mem_map_of_mem Registration.sessionId hr2)
      have hb : (r2.sessionId == r.sessionId) = false := by simpa using hne
      simp only [sessionsGet] at h2 ⊢
      simp [List.lookup_append, h2, List.lookup_cons, hb]
    · exact hnd.2

/-- What the loop sends under arbitrary faults: every send goes to the connection of an
eligible entry and carries the envelope of the call, stamped with a clock reading made
during the loop. -/
theorem broadcastLoop_sends (clk : Nat → Nat) (f : Faults) (missionId senderRole message : JsVal) :
    ∀ (l : List (SessionId × Session)) (st : Mission_Chat),
      ∃ added : List SendEvent,
        (broadcastLoop clk f missionId senderRole message l st).1.sendLog = st.sendLog ++ added ∧
        st.clockReads ≤ (broadcastLoop clk f missionId senderRole message l st).1.clockReads ∧
        ∀ ev ∈ added,
          (∃ e ∈ l, ev.ws = e.2.ws ∧ eligible missionId senderRole e.2 = true) ∧
          ∃ k, st.clockReads ≤ k ∧
            k < (broadcastLoop clk f missionId senderRole message l st).1.clockReads ∧
            ev.frame = .envelope senderRole message (clk k) := by
  intro l
  induction l with
  | nil => intro st; exact ⟨[], by simp [broadcastLoop], by simp [broadcastLoop], by simp⟩
  | cons e rest ih =>
    intro st
    obtain ⟨id, session⟩ := e
    have lift : ∀ st0 : Mission_Chat, st0.sendLog = st.sendLog → st0.clockReads = st.clockReads →
        broadcastLoop clk f missionId senderRole message ((id, session) :: rest) st =
          broadcastLoop clk f missionId senderRole message rest st0 →
        ∃ added : List SendEvent,
          (broadcastLoop clk f missionId senderRole message ((id, session) :: rest) st).1.sendLog =
            st.sendLog ++ added ∧
          st.clockReads ≤
            (broadcastLoop clk f missionId senderRole message ((id, session) :: rest) st).1.clockReads ∧
          ∀ ev ∈ added,
            (∃ e ∈ (id, session) :: rest, ev.ws = e.2.ws ∧
              eligible missionId senderRole e.2 = true) ∧
            ∃ k, st.clockReads ≤ k ∧
              k < (broadcastLoop clk f missionId senderRole message
                ((id, session) :: rest) st).1.clockReads ∧
              ev.frame = .envelope senderRole message (clk k) := by
      intro st0 hlog hclk heq
      obtain ⟨added, h1, h2, h3⟩ := ih st0
      rw [heq]
      refine ⟨added, by rw [h1, hlog], by rw [← hclk]; exact h2, ?_⟩
      intro ev hev
      obtain ⟨⟨e, he, hw⟩, k, hk1, hk2, hk3⟩ := h3 ev hev
      exact ⟨⟨e, List.mem_cons_of_mem _ he, hw⟩, k, by rw [← hclk]; exact hk1, hk2, hk3⟩
    by_cases h1 : missionId.strictEqStr session.missionId = true
    · by_cases h2 : allowed senderRole session.role = true
      · have hel : eligible missionId senderRole session = true := by simp [eligible, h1, h2]
        by_cases h3 : f.sendFails session.ws = true
        · refine ⟨[⟨session.ws, .envelope senderRole message (clk st.clockReads), false⟩], ?_, ?_, ?_⟩
          · simp [broadcastLoop, h1, h2, h3, dateNow, wsSend]
          · simp [broadcastLoop, h1, h2, h3, dateNow, wsSend]
          · intro ev hev
            rw [List.mem_singleton] at hev
            subst hev
            refine ⟨⟨(id, session), List.mem_cons_self _ _, rfl, hel⟩, st.clockReads,
              Nat.le_refl _, ?_, rfl⟩
            simp [broadcastLoop, h1, h2, h3, dateNow, wsSend]
        · have h3' : f.sendFails session.ws = false := by simpa using h3
          have hstep : broadcastLoop clk f missionId senderRole message ((id, session) :: rest) st =
              broadcastLoop clk f missionId senderRole message rest
                { st with
                  sendLog := st.sendLog ++
                    [⟨session.ws, .envelope senderRole message (clk st.clockReads), true⟩]
                  clockReads := st.clockReads + 1 } := by
            simp [broadcastLoop, h1, h2, h3', dateNow, wsSend]
          obtain ⟨added, a1, a2, a3⟩ := ih
            { st with
              sendLog := st.sendLog ++
                [⟨session.ws, .envelope senderRole message (clk st.clockReads), true⟩]
              clockReads := st.clockReads + 1 }
          rw [hstep]
          simp only at a1 a2 a3
          refine ⟨⟨session.ws, .envelope senderRole message (clk st.clockReads), true⟩ :: added,
            by rw [a1]; simp, by omega, ?_⟩
          intro ev hev
          rcases List.mem_cons.1 hev with rfl | hev
          · exact ⟨⟨(id, session), List.mem_cons_self _ _, rfl, hel⟩, st.clockReads,
              Nat.le_refl _, by omega, rfl⟩
          · obtain ⟨⟨e, he, hw⟩, k, hk1, hk2, hk3⟩ := a3 ev hev
            exact ⟨⟨e, List.mem_cons_of_mem _ he, hw⟩, k, by omega, hk2, hk3⟩
      · exact lift st rfl rfl (by simp [broadcastLoop, h1, h2])
    · exact lift st rfl rfl (by simp [broadcastLoop, h1])

/-- Every send of a router call, whatever the faults, goes to the connection of a
registry entry that is eligible for the call. -/
theorem broadcastMessage_sends_registered (clk : Nat → Nat) (f : Faults) (st : Mission_Chat)
    (missionId senderRole message : JsVal) :
    ∀ ev ∈ newSends st (broadcastMessage clk f st missionId senderRole message).1,
      ∃ e ∈ st.sessions, ev.ws = e.2.ws ∧ eligible missionId senderRole e.2 = true := by
  obtain ⟨added, h1, -, h3⟩ := broadcastLoop_sends clk f missionId senderRole message st.sessions st
  have hlog : (broadcastMessage clk f st missionId senderRole message).1.sendLog =
      st.sendLog ++ added := by
    unfold broadcastMessage
    generalize broadcastLoop clk f missionId senderRole message st.sessions st = r at h1
    obtain ⟨st2, b⟩ := r
    cases b with
    | false => exact h1
    | true =>
      simp only at h1 ⊢
      rw [(persistMessage_sendLog clk f senderRole message st2).1, h1]
  intro ev hev
  rw [newSends, hlog, List.drop_left] at hev
  exact (h3 ev hev).1

/-- Every send of `processMessage` goes to the connection of a registry entry. -/
theorem processMessage_sends_registered (clk : Nat → Nat) (f : Faults) (st : Mission_Chat)
    (sessionId : SessionId) (payload : JsVal) :
    ∀ ev ∈ newSends st (processMessage clk f st sessionId payload).1,
      ∃ e ∈ st.sessions, ev.ws = e.2.ws := by
  unfold processMessage
  cases sessionsGet st sessionId with
  | none => intro ev hev; simp [newSends] at hev
  | some session =>
    cases payload.getProp "message" with
    | none => intro ev hev; simp [newSends] at hev
    | some message =>
      intro ev hev
      obtain ⟨e, he, hw, -⟩ := broadcastMessage_sends_registered clk f st _ _ _ ev hev
      exact ⟨e, he, hw⟩

/-- An entry present after an event was present before it, or the event is a request and
the entry holds the server socket of that request. -/
theorem step_sessions_mem_ws (jsonParse : String → Option JsVal) (clk : Nat → Nat)
    (st : Mission_Chat) (ev : Event) (e : SessionId × Session)
    (h : e ∈ (step jsonParse clk st ev).sessions) :
    e ∈ st.sessions ∨
      ∃ f request sessionId client server,
        ev = .request f request sessionId client server ∧ e.2.ws = server := by
  cases ev with
  | request f request sessionId client server =>
    simp only [step, fetch] at h
    split at h
    · split at h
      · exact Or.inl h
      · rcases mem_sessionsSet h with h1 | h1
        · exact Or.inl h1
        · exact Or.inr ⟨f, request, sessionId, client, server, rfl, by rw [h1]⟩
    · split at h
      · rw [handleMessage_sessions] at h
        exact Or.inl h
      · exact Or.inl h
  | frame f sessionId ws data =>
    simp only [step] at h
    rw [onMessage_sessions] at h
    exact Or.inl h
  | close sessionId =>
    simp only [step, onClose] at h
    exact Or.inl (List.mem_filter.1 h).1

theorem run_keeps_socket_out (jsonParse : String → Option JsVal) (clk : Nat → Nat) (ws : Conn) :
    ∀ (events : List Event) (st : Mission_Chat),
      (∀ e ∈ st.sessions, e.2.ws ≠ ws) →
      (∀ f request sessionId client server,
        Event.request f request sessionId client server ∈ events → server ≠ ws) →
      ∀ e ∈ (run jsonParse clk st events).sessions, e.2.ws ≠ ws := by
  intro events
  induction events with
  | nil => intro st h _; exact h
  | cons ev rest ih =>
    intro st h hnew
    apply ih
    · intro e he
      rcases step_sessions_mem_ws jsonParse clk st ev e he with h1 | ⟨f, r, i, c, srv, hev, hw⟩
      · exact h e h1
      · rw [hw]
        exact hnew f r i c srv (by rw [hev]; exact List.mem_cons_self _ _)
    · intro f r i c srv hmem
      exact hnew f r i c srv (List.mem_cons_of_mem _ hmem)

/-- The trace of a router call under arbitrary faults: its sends carry clock readings
made before reading number `n`, and the storage is either untouched or holds the history
extended by the entry stamped with reading number `n`; the latter when the call returns. -/
theorem broadcastMessage_trace (clk : Nat → Nat) (f : Faults) (st : Mission_Chat)
    (missionId senderRole message : JsVal) :
    ∃ (added : List SendEvent) (n : Nat),
      (broadcastMessage clk f st missionId senderRole message).1.sendLog = st.sendLog ++ added ∧
      st.clockReads ≤ n ∧
      n ≤ (broadcastMessage clk f st missionId senderRole message).1.clockReads ∧
      (∀ ev ∈ added, ∃ k, st.clockReads ≤ k ∧ k < n ∧
        ev.frame = .envelope senderRole message (clk k)) ∧
      ((broadcastMessage clk f st missionId senderRole message).1.storage = st.storage ∨
        (n < (broadcastMessage clk f st missionId senderRole message).1.clockReads ∧
          (broadcastMessage clk f st missionId senderRole message).1.storage =
            st.storage.put "history" (st.history ++ [⟨senderRole, message, clk n⟩]))) ∧
      (∀ u, (broadcastMessage clk f st missionId senderRole message).2 = .returned u →
        (broadcastMessage clk f st missionId senderRole message).1.storage =
          st.storage.put "history" (st.history ++ [⟨senderRole, message, clk n⟩])) := by
  obtain ⟨added, h1, h2, h3⟩ :=
    broadcastLoop_sends clk f missionId senderRole message st.sessions st
  have hfr := broadcastLoop_frame clk f missionId senderRole message st.sessions st
  unfold broadcastMessage
  generalize broadcastLoop clk f missionId senderRole message st.sessions st = r at h1 h2 h3 hfr
  obtain ⟨st2, b⟩ := r
  simp only at h1 h2 h3 hfr
  have hsend : ∀ ev ∈ added, ∃ k, st.clockReads ≤ k ∧ k < st2.clockReads ∧
      ev.frame = .envelope senderRole message (clk k) := fun ev hev => (h3 ev hev).2
  have hhist : st2.history = st.history := by rw [Mission_Chat.history, hfr.1]; rfl
  cases b with
  | false =>
    exact ⟨added, st2.clockReads, h1, h2, Nat.le_refl _, hsend, Or.inl hfr.1,
      by intro u hu; simp at hu⟩
  | true =>
    simp only [persistMessage, dateNow]
    cases hg : f.getFails with
    | true =>
      exact ⟨added, st2.clockReads, by simpa using h1, h2, by simp, hsend,
        Or.inl (by simpa using hfr.1), by intro u hu; simp at hu⟩
    | false =>
      cases hp : f.putFails with
      | true =>
        exact ⟨added, st2.clockReads, by simpa using h1, h2, by simp, hsend,
          Or.inl (by simpa using hfr.1), by intro u hu; simp at hu⟩
      | false =>
        have hst : Storage.put st2.storage "history"
            ((st2.storage.get "history").getD [] ++ [⟨senderRole, message, clk st2.clockReads⟩]) =
            st.storage.put "history" (st.history ++ [⟨senderRole, message, clk st2.clockReads⟩]) := by
          rw [hfr.1]; rfl
        exact ⟨added, st2.clockReads, by simpa using h1, h2, by simp, hsend,
          Or.inr ⟨by simp, by simpa using hst⟩, by intro u _; simpa using hst⟩

theorem historyOrdered_broadcastMessage (clk : Nat → Nat) (hmono : Monotone clk) (f : Faults)
    (st : Mission_Chat) (missionId senderRole message : JsVal) (h : historyOrdered clk st) :
    historyOrdered clk (broadcastMessage clk f st missionId senderRole message).1 := by
  obtain ⟨added, n, -, h2, h3, -, h5, -⟩ :=
    broadcastMessage_trace clk f st missionId senderRole message
  generalize broadcastMessage clk f st missionId senderRole message = r at h3 h5
  obtain ⟨hpw, hle⟩ := h
  rcases h5 with h5 | ⟨h5, h6⟩
  · have hs : r.1.stamps = st.stamps := by
      simp only [Mission_Chat.stamps, Mission_Chat.history, h5]
    refine ⟨by rw [hs]; exact hpw, ?_⟩
    intro t ht
    rw [hs] at ht
    exact Nat.le_trans (hle t ht) (hmono (Nat.le_trans h2 h3))
  · have hs : r.1.stamps = st.stamps ++ [clk n] := by
      simp only [Mission_Chat.stamps, history_of_put _ _ _ h6, List.map_append, List.map_cons,
        List.map_nil]
    rw [historyOrdered, hs]
    refine ⟨?_, ?_⟩
    · rw [List.pairwise_append]
      refine ⟨hpw, List.pairwise_singleton _ _, ?_⟩
      intro a ha b hb
      rw [List.mem_singleton] at hb
      rw [hb]
      exact Nat.le_trans (hle a ha) (hmono h2)
    · intro t ht
      rcases List.mem_append.1 ht with ht | ht
      · exact Nat.le_trans (hle t ht) (hmono (Nat.le_trans h2 h3))
      · rw [List.mem_singleton] at ht
        rw [ht]
        exact hmono (Nat.le_of_lt h5)

theorem historyOrdered_routeAll (clk : Nat → Nat) (hmono : Monotone clk) :
    ∀ (calls : List RouteCall) (st : Mission_Chat), historyOrdered clk st →
      historyOrdered clk (routeAll clk st calls).1 := by
  intro calls
  induction calls with
  | nil => intro st h; exact h
  | cons c rest ih =>
    intro st h
    simp only [routeAll]
    exact ih _ (historyOrdered_broadcastMessage clk hmono c.faults st _ _ _ h)

theorem sessionsGet_onClose_ne (st : Mission_Chat) (sessionId k : SessionId)
    (hk : k ≠ sessionId) : sessionsGet (onClose st sessionId) k = sessionsGet st k := by
  simp only [sessionsGet, onClose]
  generalize st.sessions = l
  induction l with
  | nil => rfl
  | cons e rest ih =>
    obtain ⟨k0, v⟩ := e
    by_cases h0 : k0 = sessionId
    · subst h0
      have hne : (k == k0) = false := by simpa using hk
      simp [List.filter_cons, List.lookup_cons, hne, ih]
    · by_cases h1 : k = k0
      · simp [List.filter_cons, h0, List.lookup_cons, h1]
      · have hne : (k == k0) = false := by simpa using h1
        simp [List.filter_cons, h0, List.lookup_cons, hne, ih]

theorem sessionsGet_onClose_self (st : Mission_Chat) (sessionId : SessionId) :
    sessionsGet (onClose st sessionId) sessionId = none := by
  simp only [sessionsGet, onClose, List.lookup_eq_none_iff]
  intro e he
  have := (List.mem_filter.1 he).2
  simp only [bne_iff_ne, ne_eq] at this ⊢
  exact fun h => this h.symm

theorem sessionsGet_handleSession_ne (st : Mission_Chat) (sessionId k : SessionId) (ws : Conn)
    (role missionId : String) (hk : k ≠ sessionId) :
    sessionsGet (handleSession st sessionId ws role missionId) k = sessionsGet st k := by
  simp only [sessionsGet, handleSession, sessionsSet]
  have hne : (k == sessionId) = false := by simpa using hk
  split
  · generalize st.sessions = l
    induction l with
    | nil => rfl
    | cons e rest ih =>
      obtain ⟨k0, v⟩ := e
      by_cases h0 : k0 = sessionId
      · subst h0
        simp only [List.map_cons, beq_self_eq_true, if_true, List.lookup_cons, hne]
        exact ih
      · have h0' : (k0 == sessionId) = false := by simpa using h0
        simp only [List.map_cons, h0', Bool.false_eq_true, if_false, List.lookup_cons]
        rw [ih]
  · simp [List.lookup_append, List.lookup_cons, hne]

/-- An event that is not a registration under the identifier `k` leaves the entry of `k`
as it was or removes it. -/
theorem step_sessionsGet (jsonParse : String → Option JsVal) (clk : Nat → Nat)
    (st : Mission_Chat) (ev : Event) (k : SessionId)
    (hev : ∀ f request sessionId client server,
      ev = .request f request sessionId client server → sessionId ≠ k) :
    sessionsGet (step jsonParse clk st ev) k = sessionsGet st k ∨
      sessionsGet (step jsonParse clk st ev) k = none := by
  cases ev with
  | request f request sessionId client server =>
    have hne : k ≠ sessionId := fun h => hev f request sessionId client server rfl h.symm
    left
    simp only [step, fetch]
    split
    · split
      · rfl
      · exact sessionsGet_handleSession_ne st sessionId k server _ _ hne
    · split
      · simp only [sessionsGet, handleMessage_sessions]
      · rfl
  | frame f sessionId ws data =>
    left
    simp only [step, sessionsGet, onMessage_sessions]
  | close sessionId =>
    simp only [step]
    by_cases h : k = sessionId
    · right
      rw [h]
      exact sessionsGet_onClose_self st sessionId
    · left
      exact sessionsGet_onClose_ne st sessionId k h

theorem run_sessionsGet (jsonParse : String → Option JsVal) (clk : Nat → Nat) (k : SessionId)
    (session : Session) :
    ∀ (events : List Event) (st : Mission_Chat),
      (sessionsGet st k = some session ∨ sessionsGet st k = none) →
      (∀ f request sessionId client server,
        Event.request f request sessionId client server ∈ events → sessionId ≠ k) →
      sessionsGet (run jsonParse clk st events) k = some session ∨
        sessionsGet (run jsonParse clk st events) k = none := by
  intro events
  induction events with
  | nil => intro st h _; exact h
  | cons ev rest ih =>
    intro st h hnew
    apply ih
    · have hstep := step_sessionsGet jsonParse clk st ev k
        (fun f r i c srv he => hnew f r i c srv (by rw [he]; exact List.mem_cons_self _ _))
      rcases hstep with h1 | h1
      · rw [h1]; exact h
      · exact Or.inr h1
    · intro f r i c srv hmem
      exact hnew f r i c srv (List.mem_cons_of_mem _ hmem)

theorem mem_sessionsSet_of_ne {sessions : List (SessionId × Session)} {key : SessionId}
    {value : Session} {e : SessionId × Session} (he : e ∈ sessions) (hne : e.1 ≠ key) :
    e ∈ sessionsSet sessions key value := by
  have hb : (e.1 == key) = false := by simpa using hne
  unfold sessionsSet
  split
  · exact List.mem_map.2 ⟨e, he, by simp [hb]⟩
  · exact List.mem_append_left _ he

/-- An entry stays in the registry through an event unless the event is the close of its
identifier or a registration under its identifier. -/
theorem step_sessions_keep (jsonParse : String → Option JsVal) (clk : Nat → Nat)
    (st : Mission_Chat) (ev : Event) (e : SessionId × Session) (he : e ∈ st.sessions) :
    e ∈ (step jsonParse clk st ev).sessions ∨ ev = .close e.1 ∨
      ∃ f request client server, ev = .request f request e.1 client server := by
  cases ev with
  | request f request sessionId client server =>
    by_cases hk : e.1 = sessionId
    · exact Or.inr (Or.inr ⟨f, request, client, server, by rw [hk]⟩)
    · left
      simp only [step, fetch]
      split
      · split
        · exact he
        · exact mem_sessionsSet_of_ne he hk
      · split
        · rw [handleMessage_sessions]; exact he
        · exact he
  | frame f sessionId ws data =>
    left
    simp only [step]
    rw [onMessage_sessions]
    exact he
  | close sessionId =>
    by_cases hk : e.1 = sessionId
    · exact Or.inr (Or.inl (by rw [hk]))
    · left
      simp only [step, onClose]
      exact List.mem_filter.2 ⟨he, by simpa using hk⟩

/-- After calls that all return, the history is the former one followed by the entries
of the calls, in call order. -/
theorem routeAll_history_append (clk : Nat → Nat) (calls : List RouteCall) :
    ∀ (st : Mission_Chat), (routeAll clk st calls).2 = true →
      ∃ stamps : List Nat, stamps.length = calls.length ∧
        (routeAll clk st calls).1.history = st.history ++ entriesOf calls stamps := by
  induction calls with
  | nil => intro st _; exact ⟨[], rfl, by simp [routeAll, entriesOf]⟩
  | cons c rest ih =>
    intro st h
    simp only [routeAll, Bool.and_eq_true] at h ⊢
    obtain ⟨h1, h2⟩ := h
    obtain ⟨stamps, hlen, hhist⟩ := ih _ h2
    generalize hr : broadcastMessage clk c.faults st c.missionId c.senderRole c.message = r
      at h1 hhist ⊢
    obtain ⟨st1, res⟩ := r
    cases res with
    | threw e => simp [Completion.isReturned] at h1
    | returned u =>
      obtain ⟨t, ht⟩ := broadcastMessage_returned hr
      refine ⟨t :: stamps, by simp [hlen], ?_⟩
      simp only at hhist ⊢
      rw [hhist, history_of_put st1 _ _ ht]
      simp [entriesOf]

theorem setObject_ne (d : Deployment) (m1 m2 : String) (st : Mission_Chat) (h : m1 ≠ m2) :
    (d.setObject m1 st).objectOf m2 = d.objectOf m2 := by
  have : ¬ m2 = m1 := fun e => h e.symm
  simp [Deployment.setObject, this]

theorem setObject_self (d : Deployment) (m : String) (st : Mission_Chat) :
    (d.setObject m st).objectOf m = st := by
  simp [Deployment.setObject]

/-- The object of a mission evolves as if only the calls for that mission were made. -/
theorem deployment_routeAll_object (clk : Nat → Nat) (m : String) :
    ∀ (calls : List MissionCall) (d : Deployment),
      (d.routeAll clk calls).objectOf m = (routeAll clk (d.objectOf m) (callsFor m calls)).1 := by
  intro calls
  induction calls with
  | nil => intro d; rfl
  | cons c rest ih =>
    intro d
    rw [Deployment.routeAll, ih]
    by_cases hc : c.missionId = m
    · have hf : callsFor m (c :: rest) = c.toRouteCall :: callsFor m rest := by
        simp [callsFor, List.filter_cons, hc]
      rw [hf, routeAll]
      simp only [Deployment.route, MissionCall.toRouteCall]
      rw [← hc, setObject_self]
    · have hf : callsFor m (c :: rest) = callsFor m rest := by
        simp [callsFor, List.filter_cons, hc]
      rw [hf]
      simp only [Deployment.route]
      rw [setObject_ne _ _ _ _ hc]

/-- A submission body whose missionId, senderRole or message reads as `undefined` is
answered with status 400 on the unchanged state. -/
theorem handleMessage_undefined_field (clk : Nat → Nat) (f : Faults) (st : Mission_Chat)
    (body : JsVal)
    (hmiss : body.getProp "missionId" = some .undefined ∨
      body.getProp "senderRole" = some .undefined ∨
      body.getProp "message" = some .undefined) :
    handleMessage clk f st (some body) = (st, .returned ⟨400, "Invalid payload", none⟩) := by
  unfold handleMessage
  cases body with
  | undefined => simp [JsVal.getProp] at hmiss
  | null => simp [JsVal.getProp] at hmiss
  | obj fields =>
    simp only [JsVal.getProp, Option.some.injEq] at hmiss ⊢
    rcases hmiss with h | h | h <;> simp [h, JsVal.truthy]
  | _ => simp [JsVal.getProp, JsVal.truthy]

/-! ## Policy (lines 93-101) -/

/-- C1. The `allowed` expression of broadcastMessage is the ICC-hub rule: on strings it
is true iff exactly one of sender and receiver is "ICC" and the other is "CLIENT" or
"OPERATOR"; it is false on ICC/ICC, CLIENT/CLIENT, OPERATOR/OPERATOR, CLIENT/OPERATOR
and OPERATOR/CLIENT, false when either string is not one of the three roles, and false
when the sender is not a string at all. -/
theorem allowed_iff_iccHubRule :
    (∀ s r : String, allowed (.str s) r = true ↔ iccHubRule s r) ∧
    allowed (.str "ICC") "ICC" = false ∧
    allowed (.str "CLIENT") "CLIENT" = false ∧
    allowed (.str "OPERATOR") "OPERATOR" = false ∧
    allowed (.str "CLIENT") "OPERATOR" = false ∧
    allowed (.str "OPERATOR") "CLIENT" = false ∧
    (∀ s r : String, (s ≠ "ICC" ∧ s ≠ "CLIENT" ∧ s ≠ "OPERATOR") ∨
        (r ≠ "ICC" ∧ r ≠ "CLIENT" ∧ r ≠ "OPERATOR") → allowed (.str s) r = false) ∧
    (∀ (v : JsVal) (r : String), (∀ s, v ≠ .str s) → allowed v r = false) := by
  have key : ∀ s r : String, allowed (.str s) r = true ↔ iccHubRule s r := by
    intro s r
    simp only [allowed, JsVal.strictEqStr, iccHubRule, Bool.or_eq_true, Bool.and_eq_true,
      beq_iff_eq]
    constructor
    · rintro (⟨hs, hr⟩ | ⟨hs, hr⟩)
      · refine Or.inl ⟨hs, ?_, hr⟩
        rcases hr with h | h <;> rw [h] <;> decide
      · refine Or.inr ⟨hr, ?_, hs⟩
        rcases hs with h | h <;> rw [h] <;> decide
    · rintro (⟨hs, -, hr⟩ | ⟨hr, -, hs⟩)
      · exact Or.inl ⟨hs, hr⟩
      · exact Or.inr ⟨hs, hr⟩
  have neg : ∀ s r : String, ¬ iccHubRule s r → allowed (.str s) r = false := by
    intro s r h
    cases hb : allowed (.str s) r
    · rfl
    · exact absurd ((key s r).1 hb) h
  refine ⟨key, ?_, ?_, ?_, ?_, ?_, ?_, ?_⟩
  · exact neg _ _ (by simp [iccHubRule])
  · exact neg _ _ (by simp [iccHubRule])
  · exact neg _ _ (by simp [iccHubRule])
  · exact neg _ _ (by simp [iccHubRule])
  · exact neg _ _ (by simp [iccHubRule])
  · intro s r h
    apply neg
    unfold iccHubRule
    rcases h with ⟨h1, h2, h3⟩ | ⟨h1, h2, h3⟩
    · rintro (⟨hs, -⟩ | ⟨-, -, hs | hs⟩)
      · exact h1 hs
      · exact h2 hs
      · exact h3 hs
    · rintro (⟨-, -, hr | hr⟩ | ⟨hr, -⟩)
      · exact h2 hr
      · exact h3 hr
      · exact h1 hr
  · intro v r h
    cases v with
    | str s => exact absurd rfl (h s)
    | _ => simp [allowed, JsVal.strictEqStr]

/-! ## Delivery (lines 85-108) -/

/-- C2. In a call of broadcastMessage in which no send fails, on a registry whose
sessions have distinct connections: every registered session of the mission whose role
is allowed for the sender receives exactly one frame, with `from` the sender role and
`message` the message; every other registered session receives nothing; and every send
of the call is delivered to an eligible registered session. -/
theorem broadcastMessage_delivers_exactly_eligible (clk : Nat → Nat) (f : Faults)
    (st : Mission_Chat) (missionId senderRole message : JsVal)
    (hf : ∀ ws, f.sendFails ws = false)
    (hws : (st.sessions.map (fun e => e.2.ws)).Nodup) :
    (∀ e ∈ st.sessions, eligible missionId senderRole e.2 = true →
      ∃ t, framesTo (newSends st (broadcastMessage clk f st missionId senderRole message).1)
        e.2.ws = [.envelope senderRole message t]) ∧
    (∀ e ∈ st.sessions, eligible missionId senderRole e.2 = false →
      framesTo (newSends st (broadcastMessage clk f st missionId senderRole message).1)
        e.2.ws = []) ∧
    (∀ ev ∈ newSends st (broadcastMessage clk f st missionId senderRole message).1,
      ev.delivered = true ∧
      ∃ e ∈ st.sessions, ev.ws = e.2.ws ∧ missionId = .str e.2.missionId ∧
        allowed senderRole e.2.role = true) := by
  rw [broadcastMessage_newSends clk f st missionId senderRole message hf]
  refine ⟨?_, ?_, ?_⟩
  · intro e he hel
    exact framesTo_envelopes_of_mem clk senderRole message _ _ (recipients_ws_nodup hws) e.2
      (mem_recipients.2 ⟨⟨e, he, rfl⟩, hel⟩)
  · intro e he hel
    apply framesTo_envelopes_of_not_mem
    intro hmem
    obtain ⟨r, hr, hrws⟩ := List.mem_map.1 hmem
    obtain ⟨⟨e2, he2, rfl⟩, hel2⟩ := mem_recipients.1 hr
    have : e2 = e := List.inj_on_of_nodup_map hws he2 he hrws
    rw [this, hel] at hel2
    exact Bool.false_ne_true hel2
  · intro ev hev
    obtain ⟨r, hr, hws2, hdel⟩ := mem_envelopes hev
    obtain ⟨⟨e, he, rfl⟩, hel⟩ := mem_recipients.1 hr
    refine ⟨hdel, e, he, hws2, ?_⟩
    exact eligible_iff.1 hel

/-- Witness of C2 on the scenario of the specification: a message from ICC reaches B and
C but not A, and a message from CLIENT reaches A only. -/
theorem broadcastMessage_delivers_exactly_eligible_witness :
    (framesTo (newSends trioState
        (broadcastMessage tickClock Faults.none trioState (.str "m1") (.str "ICC") (.str "go")).1) 1
      = []) ∧
    (framesTo (newSends trioState
        (broadcastMessage tickClock Faults.none trioState (.str "m1") (.str "ICC") (.str "go")).1) 2
      = [.envelope (.str "ICC") (.str "go") 1000]) ∧
    (framesTo (newSends trioState
        (broadcastMessage tickClock Faults.none trioState (.str "m1") (.str "ICC") (.str "go")).1) 3
      = [.envelope (.str "ICC") (.str "go") 1001]) ∧
    (framesTo (newSends trioState
        (broadcastMessage tickClock Faults.none trioState (.str "m1") (.str "CLIENT") (.str "ok")).1) 1
      = [.envelope (.str "CLIENT") (.str "ok") 1000]) ∧
    (framesTo (newSends trioState
        (broadcastMessage tickClock Faults.none trioState (.str "m1") (.str "CLIENT") (.str "ok")).1) 2
      = []) ∧
    (framesTo (newSends trioState
        (broadcastMessage tickClock Faults.none trioState (.str "m1") (.str "CLIENT") (.str "ok")).1) 3
      = []) ∧
    (∀ ev ∈ newSends trioState
        (broadcastMessage tickClock Faults.none trioState (.str "m1") (.str "CLIENT") (.str "ok")).1,
      ev.delivered = true ∧
      ∃ e ∈ trioState.sessions, ev.ws = e.2.ws ∧ JsVal.str "m1" = .str e.2.missionId ∧
        allowed (.str "CLIENT") e.2.role = true) :=
  ⟨rfl, rfl, rfl, rfl, rfl, rfl,
    (broadcastMessage_delivers_exactly_eligible tickClock Faults.none trioState (.str "m1")
      (.str "CLIENT") (.str "ok") (fun _ => rfl) (by decide)).2.2⟩

/-! ## Persistence (lines 110-118) -/

/-- C3. Every returning call of broadcastMessage appends exactly one entry
{senderRole, message, timestamp} at the end of the stored history and keeps the earlier
entries, whatever the registry holds (also with no eligible recipient): after K calls
that all return, the history is the history before followed by K entries, in call
order, each with the senderRole and message of its call. -/
theorem routeAll_appends_in_call_order (clk : Nat → Nat) (calls : List RouteCall) :
    ∀ (st : Mission_Chat), (routeAll clk st calls).2 = true →
      ∃ stamps : List Nat, stamps.length = calls.length ∧
        (routeAll clk st calls).1.history = st.history ++ entriesOf calls stamps := by
  induction calls with
  | nil => intro st _; exact ⟨[], rfl, by simp [routeAll, entriesOf]⟩
  | cons c rest ih =>
    intro st h
    simp only [routeAll, Bool.and_eq_true] at h ⊢
    obtain ⟨h1, h2⟩ := h
    obtain ⟨stamps, hlen, hhist⟩ := ih _ h2
    generalize hr : broadcastMessage clk c.faults st c.missionId c.senderRole c.message = r
      at h1 hhist ⊢
    obtain ⟨st1, res⟩ := r
    cases res with
    | threw e => simp [Completion.isReturned] at h1
    | returned u =>
      obtain ⟨t, ht⟩ := broadcastMessage_returned hr
      refine ⟨t :: stamps, by simp [hlen], ?_⟩
      simp only at hhist ⊢
      rw [hhist, history_of_put st1 _ _ ht]
      simp [entriesOf]

/-- Witness of C3: two returning calls on the freshly constructed object, which has no
session at all, leave exactly their two entries, in call order. -/
theorem routeAll_appends_in_call_order_witness :
    (routeAll tickClock Mission_Chat.init twoCalls).2 = true ∧
    (routeAll tickClock Mission_Chat.init twoCalls).1.history =
      [⟨.str "ICC", .str "one", 1000⟩, ⟨.str "CLIENT", .str "two", 1001⟩] ∧
    ∃ stamps : List Nat, stamps.length = twoCalls.length ∧
      (routeAll tickClock Mission_Chat.init twoCalls).1.history =
        Mission_Chat.init.history ++ entriesOf twoCalls stamps :=
  ⟨rfl, rfl, routeAll_appends_in_call_order tickClock twoCalls Mission_Chat.init rfl⟩

/-- C4. History is kept per mission id, in the partition of the system by mission that
the specification describes: for distinct mission ids m1 and m2, a router call and an
out-of-band submission for m1 leave the object of m2, so the history of m2, unchanged;
after any sequence of calls the object of m2 is what the calls made with missionId = m2
alone produce, so when these calls return the history of m2 is its former history
followed by exactly their entries, in call order. Within an object the class rewrites the
whole list under the fixed key "history". -/
theorem history_kept_per_mission (clk : Nat → Nat) (d : Deployment) (m2 : String) :
    (∀ (f : Faults) (m1 : String) (senderRole message : JsVal), m1 ≠ m2 →
      (d.route clk f m1 senderRole message).1.objectOf m2 = d.objectOf m2 ∧
      (d.route clk f m1 senderRole message).1.history m2 = d.history m2) ∧
    (∀ (f : Faults) (m1 : String) (json : Option JsVal), m1 ≠ m2 →
      (d.submit clk f m1 json).1.objectOf m2 = d.objectOf m2 ∧
      (d.submit clk f m1 json).1.history m2 = d.history m2) ∧
    (∀ calls : List MissionCall,
      (d.routeAll clk calls).objectOf m2 =
        (routeAll clk (d.objectOf m2) (callsFor m2 calls)).1) ∧
    (∀ calls : List MissionCall,
      (routeAll clk (d.objectOf m2) (callsFor m2 calls)).2 = true →
      ∃ stamps : List Nat, stamps.length = (callsFor m2 calls).length ∧
        (d.routeAll clk calls).history m2 =
          d.history m2 ++ entriesOf (callsFor m2 calls) stamps) ∧
    (∀ (f : Faults) (st st1 : Mission_Chat) (missionId senderRole message : JsVal) (u : Unit),
      broadcastMessage clk f st missionId senderRole message = (st1, .returned u) →
      ∃ t, st1.storage = st.storage.put "history" (st.history ++ [⟨senderRole, message, t⟩])) ∧
    (freshDeployment.routeAll tickClock mixedCalls).history "m2" =
      [⟨.str "ICC", .str "two", 1000⟩] ∧
    (freshDeployment.routeAll tickClock mixedCalls).history "m1" =
      [⟨.str "ICC", .str "one", 1000⟩, ⟨.str "CLIENT", .str "three", 1001⟩] := by
  refine ⟨?_, ?_, ?_, ?_, ?_, rfl, rfl⟩
  · intro f m1 senderRole message hne
    have h : (d.route clk f m1 senderRole message).1.objectOf m2 = d.objectOf m2 :=
      setObject_ne _ _ _ _ hne
    exact ⟨h, by rw [Deployment.history, h]; rfl⟩
  · intro f m1 json hne
    have h : (d.submit clk f m1 json).1.objectOf m2 = d.objectOf m2 :=
      setObject_ne _ _ _ _ hne
    exact ⟨h, by rw [Deployment.history, h]; rfl⟩
  · intro calls
    exact deployment_routeAll_object clk m2 calls d
  · intro calls hret
    obtain ⟨stamps, hlen, hh⟩ := routeAll_history_append clk (callsFor m2 calls) (d.objectOf m2) hret
    refine ⟨stamps, hlen, ?_⟩
    rw [Deployment.history, deployment_routeAll_object clk m2 calls d, hh]
    rfl
  · intro f st st1 missionId senderRole message u h
    exact broadcastMessage_returned h

/-! ## Failing sends (lines 88-118) -/

/-- Counterexample to C5 as stated: with ICC-A, CLIENT-B and OPERATOR-C in mission "m1"
and a message from ICC, the send to B fails; C is eligible and its send would succeed,
yet C receives nothing (and the history stays empty). -/
theorem send_fault_not_isolated :
    ¬ (∀ (clk : Nat → Nat) (f : Faults) (st : Mission_Chat) (missionId senderRole message : JsVal)
        (e1 e2 : SessionId × Session),
        (st.sessions.map (fun e => e.2.ws)).Nodup →
        e1 ∈ st.sessions → e2 ∈ st.sessions → e1.2.ws ≠ e2.2.ws →
        eligible missionId senderRole e1.2 = true → eligible missionId senderRole e2.2 = true →
        f.sendFails e1.2.ws = true → f.sendFails e2.2.ws = false →
        (∃ t, framesTo (newSends st (broadcastMessage clk f st missionId senderRole message).1)
          e2.2.ws = [.envelope senderRole message t]) ∧
        (∃ t, (broadcastMessage clk f st missionId senderRole message).1.history =
          st.history ++ [⟨senderRole, message, t⟩])) := by
  intro h
  have h1 := h tickClock (failOn 2) trioState (.str "m1") (.str "ICC") (.str "go")
    ("b", ⟨2, "CLIENT", "m1"⟩) ("c", ⟨3, "OPERATOR", "m1"⟩) (by decide) (by simp [trioState])
    (by simp [trioState]) (by decide) rfl rfl rfl rfl
  obtain ⟨⟨t, ht⟩, -⟩ := h1
  have hl := congrArg List.length ht
  rw [List.length_singleton] at hl
  exact absurd hl (by decide)

/-- C5, amended. A failing send aborts the call: when the send to an eligible session
fails and the sends to the eligible sessions before it in registry order do not, those
earlier sessions have received the frame, the failed send is the last send of the call
(no later session receives anything), the storage and so the history are unchanged, and
broadcastMessage throws. -/
theorem broadcastMessage_aborts_at_failed_send (clk : Nat → Nat) (f : Faults) (st : Mission_Chat)
    (missionId senderRole message : JsVal) (pre post : List (SessionId × Session))
    (id : SessionId) (session : Session)
    (hs : st.sessions = pre ++ (id, session) :: post)
    (hel : eligible missionId senderRole session = true)
    (hfail : f.sendFails session.ws = true)
    (hpre : ∀ r ∈ recipients missionId senderRole pre, f.sendFails r.ws = false) :
    (broadcastMessage clk f st missionId senderRole message).2 = .threw "ws.send" ∧
    newSends st (broadcastMessage clk f st missionId senderRole message).1 =
      envelopes clk senderRole message st.clockReads (recipients missionId senderRole pre) ++
        [⟨session.ws, .envelope senderRole message
          (clk (st.clockReads + (recipients missionId senderRole pre).length)), false⟩] ∧
    (broadcastMessage clk f st missionId senderRole message).1.storage = st.storage ∧
    (broadcastMessage clk f st missionId senderRole message).1.history = st.history := by
  obtain ⟨h1, h2⟩ := Bool.and_eq_true_iff.1 hel
  have key : broadcastMessage clk f st missionId senderRole message =
      ({ st with
          sendLog := st.sendLog ++
            (envelopes clk senderRole message st.clockReads (recipients missionId senderRole pre) ++
              [⟨session.ws, .envelope senderRole message
                (clk (st.clockReads + (recipients missionId senderRole pre).length)), false⟩])
          clockReads := st.clockReads + (recipients missionId senderRole pre).length + 1 },
        .threw "ws.send") := by
    unfold broadcastMessage
    rw [hs, broadcastLoop_prefix clk f missionId senderRole message _ pre st hpre]
    simp [broadcastLoop, h1, h2, hfail, dateNow, wsSend, hs]
  rw [key]
  simp [newSends, Mission_Chat.history]

/-- Witness of the amended C5: in the scenario with the send to B failing, the only
send of the call is the failed one to B, and the history stays empty. -/
theorem broadcastMessage_aborts_at_failed_send_witness :
    (broadcastMessage tickClock (failOn 2) trioState (.str "m1") (.str "ICC") (.str "go")).2 =
      .threw "ws.send" ∧
    newSends trioState
        (broadcastMessage tickClock (failOn 2) trioState (.str "m1") (.str "ICC") (.str "go")).1 =
      envelopes tickClock (.str "ICC") (.str "go") trioState.clockReads
          (recipients (.str "m1") (.str "ICC") [("a", ⟨1, "ICC", "m1"⟩)]) ++
        [⟨2, .envelope (.str "ICC") (.str "go")
          (tickClock (trioState.clockReads +
            (recipients (.str "m1") (.str "ICC") [("a", ⟨1, "ICC", "m1"⟩)]).length)), false⟩] ∧
    (broadcastMessage tickClock (failOn 2) trioState (.str "m1") (.str "ICC")
      (.str "go")).1.storage = trioState.storage ∧
    (broadcastMessage tickClock (failOn 2) trioState (.str "m1") (.str "ICC")
      (.str "go")).1.history = trioState.history :=
  broadcastMessage_aborts_at_failed_send tickClock (failOn 2) trioState (.str "m1") (.str "ICC")
    (.str "go") [("a", ⟨1, "ICC", "m1"⟩)] [("c", ⟨3, "OPERATOR", "m1"⟩)] "b" ⟨2, "CLIENT", "m1"⟩
    rfl rfl rfl (by intro r hr; cases hr)

/-! ## Inbound frames (lines 46-53 and 75-83) -/

/-- C6. On an inbound frame whose data is not valid JSON, the message listener of a
session makes exactly one send: the frame {"error": "Invalid message format"} on the
connection of that session (delivered unless that very send throws); it sends nothing
on any other connection, leaves the storage and the history unchanged, and leaves the
registry, so also the registration of the session, unchanged. -/
theorem onMessage_malformed_frame (jsonParse : String → Option JsVal) (clk : Nat → Nat)
    (f : Faults) (st : Mission_Chat) (sessionId : SessionId) (ws : Conn) (data : String)
    (session : Session)
    (hreg : sessionsGet st sessionId = some session)
    (hbad : jsonParse data = none) :
    newSends st (onMessage jsonParse clk f st sessionId ws data).1 =
      [⟨ws, .error "Invalid message format", !f.sendFails ws⟩] ∧
    (∀ other, other ≠ ws →
      framesTo (newSends st (onMessage jsonParse clk f st sessionId ws data).1) other = []) ∧
    (onMessage jsonParse clk f st sessionId ws data).1.storage = st.storage ∧
    (onMessage jsonParse clk f st sessionId ws data).1.history = st.history ∧
    (onMessage jsonParse clk f st sessionId ws data).1.sessions = st.sessions ∧
    sessionsGet (onMessage jsonParse clk f st sessionId ws data).1 sessionId = some session := by
  have key : (onMessage jsonParse clk f st sessionId ws data).1 =
      { st with sendLog := st.sendLog ++ [⟨ws, .error "Invalid message format", !f.sendFails ws⟩] } := by
    unfold onMessage
    simp only [hbad, wsSend]
    cases f.sendFails ws <;> rfl
  rw [key]
  refine ⟨by simp [newSends], ?_, rfl, rfl, rfl, hreg⟩
  intro other hne
  have : (ws == other) = false := by simpa using fun h => hne h.symm
  simp [newSends, framesTo, List.filter_cons, this]

/-- Witness of C6: in the scenario, the text "not json" arrives on the socket of B. -/
theorem onMessage_malformed_frame_witness :
    newSends trioState (onMessage sampleParse tickClock Faults.none trioState "b" 2 "not json").1 =
      [⟨2, .error "Invalid message format", !Faults.none.sendFails 2⟩] ∧
    (∀ other, other ≠ 2 →
      framesTo (newSends trioState
        (onMessage sampleParse tickClock Faults.none trioState "b" 2 "not json").1) other = []) ∧
    (onMessage sampleParse tickClock Faults.none trioState "b" 2 "not json").1.storage =
      trioState.storage ∧
    (onMessage sampleParse tickClock Faults.none trioState "b" 2 "not json").1.history =
      trioState.history ∧
    (onMessage sampleParse tickClock Faults.none trioState "b" 2 "not json").1.sessions =
      trioState.sessions ∧
    sessionsGet (onMessage sampleParse tickClock Faults.none trioState "b" 2 "not json").1 "b" =
      some ⟨2, "CLIENT", "m1"⟩ :=
  onMessage_malformed_frame sampleParse tickClock Faults.none trioState "b" 2 "not json"
    ⟨2, "CLIENT", "m1"⟩ rfl rfl

/-- C7. For a registered session, two decoded payloads with the same `message` field
make processMessage do exactly the same (same sends, same history entry, same
completion), and when the field can be read the call is the router call with the mission
id and the role stored in the registry entry, whatever else the payload carries. -/
theorem processMessage_ignores_payload_identity (clk : Nat → Nat) (f : Faults)
    (st : Mission_Chat) (sessionId : SessionId) (session : Session) (p1 p2 : JsVal)
    (hreg : sessionsGet st sessionId = some session)
    (hsame : p1.getProp "message" = p2.getProp "message") :
    processMessage clk f st sessionId p1 = processMessage clk f st sessionId p2 ∧
    (∀ message, p1.getProp "message" = some message →
      processMessage clk f st sessionId p1 =
        broadcastMessage clk f st (.str session.missionId) (.str session.role) message) := by
  constructor
  · unfold processMessage
    rw [hsame]
  · intro message hm
    unfold processMessage
    rw [hreg, hm]

/-- Witness of C7: B, registered as CLIENT in "m1", sends "go" once plainly and once
with forged `role`, `senderRole` and `missionId` fields; both frames are routed as a
CLIENT message of mission "m1". -/
theorem processMessage_ignores_payload_identity_witness :
    processMessage tickClock Faults.none trioState "b" (.obj [("message", .str "go")]) =
      processMessage tickClock Faults.none trioState "b"
        (.obj [("role", .str "ICC"), ("senderRole", .str "ICC"), ("missionId", .str "m2"),
          ("message", .str "go")]) ∧
    (∀ message, (JsVal.obj [("message", .str "go")]).getProp "message" = some message →
      processMessage tickClock Faults.none trioState "b" (.obj [("message", .str "go")]) =
        broadcastMessage tickClock Faults.none trioState (.str "m1") (.str "CLIENT") message) :=
  processMessage_ignores_payload_identity tickClock Faults.none trioState "b" ⟨2, "CLIENT", "m1"⟩
    _ _ rfl rfl

/-! ## Validation (lines 12-18 and 60-66) -/

/-- C8. A WebSocket upgrade request whose role or missionId is absent or empty is
answered with status 400 and the state is exactly as before: nothing is registered and
the stored history is untouched. -/
theorem fetch_upgrade_missing_field (clk : Nat → Nat) (f : Faults) (st : Mission_Chat)
    (request : Request) (sessionId : SessionId) (client server : Conn)
    (hup : request.upgrade = some "websocket")
    (hmiss : absent request.xRole = true ∨ absent request.missionIdParam = true) :
    fetch clk f st request sessionId client server =
      (st, .returned ⟨400, "Missing role or missionId", none⟩) := by
  unfold fetch
  rcases hmiss with h | h <;> simp [hup, h]

/-- Witness of C8: an upgrade request without the `x-role` header, in the scenario. -/
theorem fetch_upgrade_missing_field_witness :
    fetch tickClock Faults.none trioState noRoleRequest "u1" 10 11 =
      (trioState, .returned ⟨400, "Missing role or missionId", none⟩) :=
  fetch_upgrade_missing_field tickClock Faults.none trioState noRoleRequest "u1" 10 11 rfl
    (Or.inl rfl)

/-- Counterexample to C9 as stated: an upgrade request asserting the role "ADMIN" is not
rejected; it is answered with status 101 and a session with that role is registered. -/
theorem fetch_accepts_unknown_role :
    fetch tickClock Faults.none Mission_Chat.init adminRequest "u1" 10 11 =
      ({ Mission_Chat.init with sessions := [("u1", ⟨11, "ADMIN", "m1"⟩)] },
        .returned ⟨101, "", some 10⟩) ∧
    "ADMIN" ≠ "ICC" ∧ "ADMIN" ≠ "CLIENT" ∧ "ADMIN" ≠ "OPERATOR" :=
  ⟨rfl, by decide, by decide, by decide⟩

/-- C9, amended. On connection open the role is validated for presence only: an upgrade
request whose role or missionId is absent or empty is answered with 400 and creates no
session, and one with a non-empty role and a non-empty missionId is answered with 101
and registers a session carrying the role as asserted, whatever its value; consequently
every session in the registry of a state reached from the constructed object has a
non-empty role and a non-empty missionId. -/
theorem fetch_validates_presence_only (jsonParse : String → Option JsVal) (clk : Nat → Nat) :
    (∀ (f : Faults) (st : Mission_Chat) (request : Request) (sessionId : SessionId)
        (client server : Conn),
        request.upgrade = some "websocket" →
        (absent request.xRole = true ∨ absent request.missionIdParam = true) →
        (fetch clk f st request sessionId client server).1 = st ∧
        (fetch clk f st request sessionId client server).2 =
          .returned ⟨400, "Missing role or missionId", none⟩) ∧
    (∀ (f : Faults) (st : Mission_Chat) (request : Request) (sessionId : SessionId)
        (client server : Conn) (role missionId : String),
        request.upgrade = some "websocket" →
        request.xRole = some role → role ≠ "" →
        request.missionIdParam = some missionId → missionId ≠ "" →
        fetch clk f st request sessionId client server =
          (handleSession st sessionId server role missionId, .returned ⟨101, "", some client⟩) ∧
        sessionsGet (handleSession st sessionId server role missionId) sessionId =
          some ⟨server, role, missionId⟩) ∧
    (∀ (events : List Event),
        ∀ e ∈ (run jsonParse clk Mission_Chat.init events).sessions,
          e.2.role ≠ "" ∧ e.2.missionId ≠ "") := by
  refine ⟨?_, ?_, ?_⟩
  · intro f st request sessionId client server hup hmiss
    unfold fetch
    rcases hmiss with h | h <;> simp [hup, h]
  · intro f st request sessionId client server role missionId hup hr hrne hm hmne
    constructor
    · unfold fetch
      simp [hup, hr, hm, absent, hrne, hmne]
    · exact sessionsGet_handleSession st sessionId server role missionId
  · intro events
    apply run_sessions_presence
    intro e he
    cases he

/-- C10, evaluated at the failing input: a submission whose body is the JSON value
`null`, in which all three fields are missing, is not answered with status 400; the
destructuring of line 62 throws a TypeError before the guard of line 64 is reached, in
every state and under any faults. The state is unchanged. A body that is an object
without `message` is answered with 400. -/
theorem handleMessage_null_body_throws :
    (∀ (clk : Nat → Nat) (f : Faults) (st : Mission_Chat),
      handleMessage clk f st (some .null) = (st, .threw "TypeError")) ∧
    handleMessage tickClock Faults.none trioState (some .null) =
      (trioState, .threw "TypeError") ∧
    JsVal.null.getProp "missionId" = none ∧
    JsVal.null.getProp "senderRole" = none ∧
    JsVal.null.getProp "message" = none ∧
    handleMessage tickClock Faults.none trioState (some noMessageBody) =
      (trioState, .returned ⟨400, "Invalid payload", none⟩) :=
  ⟨fun _ _ _ => rfl, rfl, rfl, rfl, rfl, rfl⟩

/-! ## Out-of-band submission (lines 60-73) -/

/-- Counterexample to C11 as stated: submissions for mission "m1" from ICC whose message
is present with the value "", 0 or false are answered with status 400, and the router is
not run (the state is unchanged). -/
theorem handleMessage_rejects_falsy_message :
    handleMessage tickClock Faults.none trioState (some (submission (.str ""))) =
      (trioState, .returned ⟨400, "Invalid payload", none⟩) ∧
    handleMessage tickClock Faults.none trioState (some (submission (.num 0))) =
      (trioState, .returned ⟨400, "Invalid payload", none⟩) ∧
    handleMessage tickClock Faults.none trioState (some (submission (.bool false))) =
      (trioState, .returned ⟨400, "Invalid payload", none⟩) ∧
    (submission (.str "")).getProp "message" = some (.str "") :=
  ⟨rfl, rfl, rfl, rfl⟩

/-- C11, amended. For a submission body in which missionId and senderRole are non-empty
strings and message is present with a truthy value, and in a call in which no send and
no storage operation fails, handleMessage runs the router once on these three values
(its final state is that of the router call, which returns and appends one history
entry) and returns status 200 with the body {"status":"sent"}. -/
theorem handleMessage_sends_truthy_submission (clk : Nat → Nat) (f : Faults) (st : Mission_Chat)
    (body : JsVal) (missionId senderRole : String) (message : JsVal)
    (h1 : body.getProp "missionId" = some (.str missionId))
    (h2 : body.getProp "senderRole" = some (.str senderRole))
    (h3 : body.getProp "message" = some message)
    (hm : missionId ≠ "") (hs : senderRole ≠ "") (hmsg : message.truthy = true)
    (hf : ∀ ws, f.sendFails ws = false) (hg : f.getFails = false) (hp : f.putFails = false) :
    handleMessage clk f st (some body) =
      ((broadcastMessage clk f st (.str missionId) (.str senderRole) message).1,
        .returned ⟨200, sentBody, none⟩) ∧
    (broadcastMessage clk f st (.str missionId) (.str senderRole) message).2 = .returned () ∧
    ∃ t, (handleMessage clk f st (some body)).1.history =
      st.history ++ [⟨.str senderRole, message, t⟩] := by
  have hv := handleMessage_valid clk f st body (.str missionId) (.str senderRole) message
    h1 h2 h3 (by simpa [JsVal.truthy] using hm) (by simpa [JsVal.truthy] using hs) hmsg
  have hb := broadcastMessage_no_fault clk f st (.str missionId) (.str senderRole) message
    hf hg hp
  rw [hb] at hv
  rw [hv, hb]
  refine ⟨rfl, rfl, clk (st.clockReads +
    (recipients (.str missionId) (.str senderRole) st.sessions).length), ?_⟩
  exact history_of_put _ _ _ rfl

/-- Witness of the amended C11: the submission of "go" for "m1" from ICC in the scenario
is acknowledged, B and C receive the frame and the history holds the entry. -/
theorem handleMessage_sends_truthy_submission_witness :
    (handleMessage tickClock Faults.none trioState (some (submission (.str "go"))) =
      ((broadcastMessage tickClock Faults.none trioState (.str "m1") (.str "ICC") (.str "go")).1,
        .returned ⟨200, sentBody, none⟩) ∧
    (broadcastMessage tickClock Faults.none trioState (.str "m1") (.str "ICC") (.str "go")).2 =
      .returned () ∧
    ∃ t, (handleMessage tickClock Faults.none trioState (some (submission (.str "go")))).1.history =
      trioState.history ++ [⟨.str "ICC", .str "go", t⟩]) ∧
    (handleMessage tickClock Faults.none trioState (some (submission (.str "go")))).1.history =
      [⟨.str "ICC", .str "go", 1002⟩] :=
  ⟨handleMessage_sends_truthy_submission tickClock Faults.none trioState (submission (.str "go"))
    "m1" "ICC" (.str "go") rfl rfl rfl (by decide) (by decide) rfl (fun _ => rfl) rfl rfl, rfl⟩

/-- C12. Durability before acknowledgement on the out-of-band path: whenever
handleMessage returns the acknowledgement {"status":"sent"}, the stored history ends
with the entry {senderRole, message, timestamp} of the submitted body and no storage
operation has failed; and whenever the storage read or write fails on a submission that
passes validation, handleMessage throws (the error of the router propagates) instead of
returning. Evaluated in the scenario for a failing `storage.put` and `storage.get`. -/
theorem handleMessage_ack_after_durable_append (clk : Nat → Nat) :
    (∀ (f : Faults) (st st1 : Mission_Chat) (json : Option JsVal) (resp : Response),
        handleMessage clk f st json = (st1, .returned resp) → resp.body = sentBody →
        ∃ body senderRole message t, json = some body ∧
          body.getProp "senderRole" = some senderRole ∧
          body.getProp "message" = some message ∧
          st1.history = st.history ++ [⟨senderRole, message, t⟩] ∧
          f.getFails = false ∧ f.putFails = false) ∧
    (∀ (f : Faults) (st : Mission_Chat) (body missionId senderRole message : JsVal),
        body.getProp "missionId" = some missionId →
        body.getProp "senderRole" = some senderRole →
        body.getProp "message" = some message →
        missionId.truthy = true → senderRole.truthy = true → message.truthy = true →
        (f.getFails = true ∨ f.putFails = true) →
        ∃ e, (handleMessage clk f st (some body)).2 = .threw e) ∧
    (handleMessage tickClock putFault trioState (some (submission (.str "go")))).2 =
      .threw "storage.put" ∧
    (handleMessage tickClock getFault trioState (some (submission (.str "go")))).2 =
      .threw "storage.get" ∧
    (handleMessage tickClock putFault trioState (some (submission (.str "go")))).1.history =
      [] := by
  refine ⟨?_, ?_, rfl, rfl, rfl⟩
  · intro f st st1 json resp h hbody
    rcases handleMessage_returned clk f st st1 json resp h with ⟨-, hr⟩ | ⟨-, hr⟩
    · rw [hr] at hbody
      exact absurd hbody (by decide)
    · obtain ⟨body, missionId, senderRole, message, u, hj, -, h2, h3, -, -, -, hb⟩ := hr
      obtain ⟨t, ht⟩ := broadcastMessage_returned hb
      obtain ⟨hg, hp⟩ := broadcastMessage_returned_faults hb
      exact ⟨body, senderRole, message, t, hj, h2, h3, history_of_put _ _ _ ht, hg, hp⟩
  · intro f st body missionId senderRole message h1 h2 h3 t1 t2 t3 hfault
    rw [handleMessage_valid clk f st body missionId senderRole message h1 h2 h3 t1 t2 t3]
    obtain ⟨e, he⟩ := broadcastMessage_storage_fault clk f st missionId senderRole message hfault
    generalize broadcastMessage clk f st missionId senderRole message = r at he
    obtain ⟨st1, c⟩ := r
    cases c with
    | threw e1 => exact ⟨e1, rfl⟩
    | returned u => simp at he

/-! ## Registration and close (lines 39-44 and 55-57) -/

/-- C13. Registration stores exactly what was asserted: when the generated identifiers
are fresh (not in the registry, and distinct from one another), the calls of
handleSession append exactly the entries {ws, role, missionId} they were given, one per
call, after the existing entries, which are unchanged; hence the sessions of a mission
id m are the earlier sessions of m followed by exactly the sessions registered with m,
and registering the same sessions in another order gives the same sessions of m up to
their order. -/
theorem registerAll_stores_asserted (st : Mission_Chat) (regs : List Registration)
    (hfresh : ∀ r ∈ regs, sessionsGet st r.sessionId = none)
    (hnd : (regs.map Registration.sessionId).Nodup) :
    (registerAll st regs).sessions = st.sessions ++ regs.map Registration.entry ∧
    (∀ m : String, sessionsOfMission (registerAll st regs) (.str m) =
      sessionsOfMission st (.str m) ++
        (regs.filter (fun r => r.missionId == m)).map Registration.entry) ∧
    (∀ regs2 : List Registration, regs2.Perm regs → ∀ m : String,
      (sessionsOfMission (registerAll st regs2) (.str m)).Perm
        (sessionsOfMission (registerAll st regs) (.str m))) := by
  have key : ∀ rs : List Registration, (∀ r ∈ rs, sessionsGet st r.sessionId = none) →
      (rs.map Registration.sessionId).Nodup → ∀ m : String,
      sessionsOfMission (registerAll st rs) (.str m) =
        sessionsOfMission st (.str m) ++
          (rs.filter (fun r => r.missionId == m)).map Registration.entry := by
    intro rs h1 h2 m
    rw [registerAll_fresh rs st h1 h2]
    simp only [sessionsOfMission, List.filter_append, List.filter_map]
    congr 2
    apply List.filter_congr
    intro r _
    simp only [Function.comp, Registration.entry, JsVal.strictEqStr]
    by_cases h : r.missionId = m
    · simp [h]
    · have h' : m ≠ r.missionId := fun e => h e.symm
      simp [h, h']
  refine ⟨?_, key regs hfresh hnd, ?_⟩
  · rw [registerAll_fresh regs st hfresh hnd]
  · intro regs2 hperm m
    have h1 : ∀ r ∈ regs2, sessionsGet st r.sessionId = none :=
      fun r hr => hfresh r (hperm.mem_iff.1 hr)
    have h2 : (regs2.map Registration.sessionId).Nodup :=
      (hperm.map Registration.sessionId).nodup_iff.2 hnd
    rw [key regs2 h1 h2 m, key regs hfresh hnd m]
    exact List.Perm.append_left _ ((hperm.filter _).map _)

/-- Witness of C13: three registrations across "m1" and "m2" on the constructed object;
the sessions of "m1" are exactly the two registered with "m1". -/
theorem registerAll_stores_asserted_witness :
    (registerAll Mission_Chat.init threeRegistrations).sessions =
      [("a", ⟨1, "ICC", "m1"⟩), ("x", ⟨7, "CLIENT", "m2"⟩), ("b", ⟨2, "CLIENT", "m1"⟩)] ∧
    sessionsOfMission (registerAll Mission_Chat.init threeRegistrations) (.str "m1") =
      [("a", ⟨1, "ICC", "m1"⟩), ("b", ⟨2, "CLIENT", "m1"⟩)] ∧
    (registerAll Mission_Chat.init threeRegistrations).sessions =
      Mission_Chat.init.sessions ++ threeRegistrations.map Registration.entry :=
  ⟨rfl, rfl, (registerAll_stores_asserted Mission_Chat.init threeRegistrations
    (fun _ _ => rfl) (by decide)).1⟩

/-- C14. No stale handle is targeted: once the close event of a registered session has
been handled, the session is absent from the registry and the other entries are exactly
as before; and in every state reached afterwards through further requests (each on a
newly created socket pair), frames and closes, no send of a broadcastMessage or
processMessage call goes to the connection of the closed session. The connections of the
registry entries are distinct, as the sockets of distinct socket pairs are. -/
theorem closed_session_never_targeted (jsonParse : String → Option JsVal) (clk : Nat → Nat)
    (st : Mission_Chat) (sessionId : SessionId) (session : Session) (events : List Event)
    (hreg : (sessionId, session) ∈ st.sessions)
    (hws : (st.sessions.map (fun e => e.2.ws)).Nodup)
    (hnew : ∀ f request sid client server,
      Event.request f request sid client server ∈ events → server ≠ session.ws) :
    sessionsGet (onClose st sessionId) sessionId = none ∧
    (∀ e, e ∈ (onClose st sessionId).sessions ↔ e ∈ st.sessions ∧ e.1 ≠ sessionId) ∧
    (∀ k, k ≠ sessionId → sessionsGet (onClose st sessionId) k = sessionsGet st k) ∧
    (∀ (f : Faults) (missionId senderRole message : JsVal),
      ∀ ev ∈ newSends (run jsonParse clk (onClose st sessionId) events)
          (broadcastMessage clk f (run jsonParse clk (onClose st sessionId) events)
            missionId senderRole message).1,
        ev.ws ≠ session.ws) ∧
    (∀ (f : Faults) (sid : SessionId) (payload : JsVal),
      ∀ ev ∈ newSends (run jsonParse clk (onClose st sessionId) events)
          (processMessage clk f (run jsonParse clk (onClose st sessionId) events) sid payload).1,
        ev.ws ≠ session.ws) := by
  have hmem : ∀ e, e ∈ (onClose st sessionId).sessions ↔ e ∈ st.sessions ∧ e.1 ≠ sessionId := by
    intro e
    simp [onClose, List.mem_filter]
  have hout : ∀ e ∈ (onClose st sessionId).sessions, e.2.ws ≠ session.ws := by
    intro e he heq
    obtain ⟨h1, h2⟩ := (hmem e).1 he
    have : e = (sessionId, session) := List.inj_on_of_nodup_map hws h1 hreg heq
    exact h2 (by rw [this])
  have hlater := run_keeps_socket_out jsonParse clk session.ws events (onClose st sessionId)
    hout hnew
  refine ⟨?_, hmem, ?_, ?_, ?_⟩
  · simp only [sessionsGet, List.lookup_eq_none_iff]
    intro e he
    have := ((hmem e).1 he).2
    simpa using fun h : sessionId = e.1 => this h.symm
  · intro k hk
    simp only [sessionsGet, onClose]
    generalize st.sessions = l
    induction l with
    | nil => rfl
    | cons e rest ih =>
      obtain ⟨k0, v⟩ := e
      by_cases h0 : k0 = sessionId
      · subst h0
        have hne : (k == k0) = false := by simpa using hk
        simp [List.filter_cons, List.lookup_cons, hne, ih]
      · by_cases h1 : k = k0
        · simp [List.filter_cons, h0, List.lookup_cons, h1]
        · have hne : (k == k0) = false := by simpa using h1
          simp [List.filter_cons, h0, List.lookup_cons, hne, ih]
  · intro f missionId senderRole message ev hev heq
    obtain ⟨e, he, hw, -⟩ := broadcastMessage_sends_registered clk f _ _ _ _ ev hev
    exact hlater e he (hw ▸ heq)
  · intro f sid payload ev hev heq
    obtain ⟨e, he, hw⟩ := processMessage_sends_registered clk f _ sid payload ev hev
    exact hlater e he (hw ▸ heq)

/-- Witness of C14: in the scenario B closes; afterwards a session opens on a fresh
socket and A sends "go": the frame reaches C and the new session, and nothing is sent
to the connection 2 of B. -/
theorem closed_session_never_targeted_witness :
    newSends (run sampleParse tickClock (onClose trioState "b") laterEvents)
        (processMessage tickClock Faults.none
          (run sampleParse tickClock (onClose trioState "b") laterEvents) "a"
          (.obj [("message", .str "again")])).1 =
      [⟨3, .envelope (.str "ICC") (.str "again") 1003, true⟩,
       ⟨5, .envelope (.str "ICC") (.str "again") 1004, true⟩] ∧
    (∀ (f : Faults) (sid : SessionId) (payload : JsVal),
      ∀ ev ∈ newSends (run sampleParse tickClock (onClose trioState "b") laterEvents)
          (processMessage tickClock f
            (run sampleParse tickClock (onClose trioState "b") laterEvents) sid payload).1,
        ev.ws ≠ 2) :=
  ⟨rfl, (closed_session_never_targeted sampleParse tickClock trioState "b" ⟨2, "CLIENT", "m1"⟩
    laterEvents (by simp [trioState]) (by decide)
    (by
      intro f request sid client server h
      simp only [laterEvents, List.mem_cons, List.mem_singleton, Event.request.injEq,
        reduceCtorEq, or_false, List.not_mem_nil] at h
      rw [h.2.2.2.2]
      decide)).2.2.2.2⟩

/-- C15. Unregistration is idempotent: handling the close of a session twice gives the
same state as handling it once, and handling the close of an identifier that is not
registered leaves the state, so the registry, unchanged. -/
theorem onClose_idempotent (st : Mission_Chat) (sessionId : SessionId) :
    onClose (onClose st sessionId) sessionId = onClose st sessionId ∧
    (sessionsGet st sessionId = none → onClose st sessionId = st) ∧
    onClose (onClose trioState "b") "b" = onClose trioState "b" ∧
    (onClose trioState "b").sessions = [("a", ⟨1, "ICC", "m1"⟩), ("c", ⟨3, "OPERATOR", "m1"⟩)] ∧
    onClose trioState "zz" = trioState := by
  refine ⟨?_, ?_, rfl, rfl, rfl⟩
  · simp [onClose, List.filter_filter]
  · intro h
    simp only [sessionsGet, List.lookup_eq_none_iff] at h
    have hf : st.sessions.filter (fun e => e.1 != sessionId) = st.sessions := by
      rw [List.filter_eq_self]
      intro e he
      have := h e he
      simp only [bne_iff_ne, ne_eq] at this ⊢
      exact fun h2 => this h2.symm
    simp only [onClose, hf]

/-! ## Timestamps (lines 103-118) -/

/-- C16. With a clock that never decreases and a history that starts empty, after any
sequence of broadcastMessage calls (returning or not) the timestamps of the stored
history entries are non-decreasing in list order; and for every returning call, the
timestamp of its history entry is greater than or equal to the timestamp of every frame
sent in that call. -/
theorem history_timestamps_nondecreasing (clk : Nat → Nat) (st : Mission_Chat)
    (calls : List RouteCall)
    (hmono : Monotone clk) (hempty : st.history = []) :
    (routeAll clk st calls).1.stamps.Pairwise (fun a b => a ≤ b) ∧
    (∀ (f : Faults) (st0 st1 : Mission_Chat) (missionId senderRole message : JsVal) (u : Unit),
      broadcastMessage clk f st0 missionId senderRole message = (st1, .returned u) →
      ∃ t, st1.history = st0.history ++ [⟨senderRole, message, t⟩] ∧
        ∀ ev ∈ newSends st0 st1, ∃ t1, ev.frame = .envelope senderRole message t1 ∧ t1 ≤ t) := by
  constructor
  · apply (historyOrdered_routeAll clk hmono calls st ?_).1
    simp [historyOrdered, Mission_Chat.stamps, hempty]
  · intro f st0 st1 missionId senderRole message u h
    obtain ⟨added, n, h1, -, -, h4, -, h6⟩ :=
      broadcastMessage_trace clk f st0 missionId senderRole message
    rw [h] at h1 h6
    refine ⟨clk n, history_of_put _ _ _ (h6 u rfl), ?_⟩
    intro ev hev
    simp only at h1
    rw [newSends, h1, List.drop_left] at hev
    obtain ⟨k, -, hk, hfr⟩ := h4 ev hev
    exact ⟨clk k, hfr, hmono (Nat.le_of_lt hk)⟩

/-- Witness of C16: the two calls of `twoCalls` in the scenario, on the ticking clock. -/
theorem history_timestamps_nondecreasing_witness :
    (routeAll tickClock trioState twoCalls).1.stamps = [1002, 1004] ∧
    (routeAll tickClock trioState twoCalls).1.stamps.Pairwise (fun a b => a ≤ b) ∧
    newSends trioState
        (broadcastMessage tickClock Faults.none trioState (.str "m1") (.str "ICC") (.str "one")).1 =
      [⟨2, .envelope (.str "ICC") (.str "one") 1000, true⟩,
       ⟨3, .envelope (.str "ICC") (.str "one") 1001, true⟩] :=
  ⟨rfl, (history_timestamps_nondecreasing tickClock trioState twoCalls
    (fun _ _ h => Nat.add_le_add_left h 1000) rfl).1, rfl⟩

/-! ## Routing failures seen by the listener (lines 46-53) -/

/-- C17, evaluated at the failing inputs: in the scenario B sends the frame
{"message":"go"}, which is valid JSON. When `storage.put` fails while the message is
routed, and likewise when the send to the recipient A fails, the listener sends the frame
{"error": "Invalid message format"} to B. -/
theorem onMessage_reports_routing_fault_as_format_error :
    sampleParse goFrame = some (.obj [("message", .str "go")]) ∧
    newSends trioState (onMessage sampleParse tickClock putFault trioState "b" 2 goFrame).1 =
      [⟨1, .envelope (.str "CLIENT") (.str "go") 1000, true⟩,
       ⟨2, .error "Invalid message format", true⟩] ∧
    newSends trioState (onMessage sampleParse tickClock (failOn 1) trioState "b" 2 goFrame).1 =
      [⟨1, .envelope (.str "CLIENT") (.str "go") 1000, false⟩,
       ⟨2, .error "Invalid message format", true⟩] ∧
    newSends trioState (onMessage sampleParse tickClock Faults.none trioState "b" 2 goFrame).1 =
      [⟨1, .envelope (.str "CLIENT") (.str "go") 1000, true⟩] :=
  ⟨rfl, rfl, rfl, rfl⟩

/-! ## The registry under routing (lines 39-58 and 75-119) -/

/-- C18. Routing never mutates the registry: broadcastMessage, processMessage,
handleMessage and the message listener leave the registry exactly as it was, under any
faults. An entry can appear only through an upgrade request (handleSession) and can
disappear only through the close of its identifier or a registration under that same
identifier; hence, identifiers being generated fresh, the entry of a session (its
connection, role and missionId) is the same in every later state in which the session is
registered. -/
theorem routing_preserves_registry (jsonParse : String → Option JsVal) (clk : Nat → Nat) :
    (∀ (f : Faults) (st : Mission_Chat) (missionId senderRole message : JsVal),
      (broadcastMessage clk f st missionId senderRole message).1.sessions = st.sessions) ∧
    (∀ (f : Faults) (st : Mission_Chat) (sessionId : SessionId) (payload : JsVal),
      (processMessage clk f st sessionId payload).1.sessions = st.sessions) ∧
    (∀ (f : Faults) (st : Mission_Chat) (json : Option JsVal),
      (handleMessage clk f st json).1.sessions = st.sessions) ∧
    (∀ (f : Faults) (st : Mission_Chat) (sessionId : SessionId) (ws : Conn) (data : String),
      (onMessage jsonParse clk f st sessionId ws data).1.sessions = st.sessions) ∧
    (∀ (st : Mission_Chat) (ev : Event) (e : SessionId × Session),
      e ∈ (step jsonParse clk st ev).sessions → e ∉ st.sessions →
      ∃ f request sessionId client server,
        ev = .request f request sessionId client server ∧ e.2.ws = server) ∧
    (∀ (st : Mission_Chat) (ev : Event) (e : SessionId × Session),
      e ∈ st.sessions → e ∉ (step jsonParse clk st ev).sessions →
      ev = .close e.1 ∨ ∃ f request client server, ev = .request f request e.1 client server) ∧
    (∀ (st : Mission_Chat) (events : List Event) (sessionId : SessionId) (session s1 : Session),
      sessionsGet st sessionId = some session →
      (∀ f request sid client server,
        Event.request f request sid client server ∈ events → sid ≠ sessionId) →
      sessionsGet (run jsonParse clk st events) sessionId = some s1 → s1 = session) := by
  refine ⟨?_, ?_, ?_, ?_, ?_, ?_, ?_⟩
  · intro f st missionId senderRole message
    exact broadcastMessage_sessions clk f st missionId senderRole message
  · intro f st sessionId payload
    exact processMessage_sessions clk f st sessionId payload
  · intro f st json
    exact handleMessage_sessions clk f st json
  · intro f st sessionId ws data
    exact onMessage_sessions jsonParse clk f st sessionId ws data
  · intro st ev e he hnot
    rcases step_sessions_mem_ws jsonParse clk st ev e he with h | h
    · exact absurd h hnot
    · exact h
  · intro st ev e he hnot
    rcases step_sessions_keep jsonParse clk st ev e he with h | h
    · exact absurd h hnot
    · exact h
  · intro st events sessionId session s1 hreg hnew hlater
    rcases run_sessionsGet jsonParse clk sessionId session events st (Or.inl hreg) hnew with h | h
    · rw [h] at hlater
      exact (Option.some.inj hlater).symm
    · rw [h] at hlater
      cases hlater

/-- C19. A frame from a session that is not in the registry is dropped silently:
processMessage returns normally with the state exactly as before, so it sends nothing,
appends nothing to the history and leaves the registry unchanged. -/
theorem processMessage_unregistered (clk : Nat → Nat) (f : Faults) (st : Mission_Chat)
    (sessionId : SessionId) (payload : JsVal)
    (habs : sessionsGet st sessionId = none) :
    processMessage clk f st sessionId payload = (st, .returned ()) ∧
    newSends st (processMessage clk f st sessionId payload).1 = [] ∧
    (processMessage clk f st sessionId payload).1.history = st.history ∧
    (processMessage clk f st sessionId payload).1.sessions = st.sessions := by
  have key : processMessage clk f st sessionId payload = (st, .returned ()) := by
    unfold processMessage
    rw [habs]
  rw [key]
  simp [newSends]

/-- Witness of C19: after B has closed, a payload processed for "b" changes nothing,
even the payload `null`, on which the read of `message` would throw. -/
theorem processMessage_unregistered_witness :
    (processMessage tickClock Faults.none (onClose trioState "b") "b" .null =
        (onClose trioState "b", .returned ()) ∧
      newSends (onClose trioState "b")
        (processMessage tickClock Faults.none (onClose trioState "b") "b" .null).1 = [] ∧
      (processMessage tickClock Faults.none (onClose trioState "b") "b" .null).1.history =
        (onClose trioState "b").history ∧
      (processMessage tickClock Faults.none (onClose trioState "b") "b" .null).1.sessions =
        (onClose trioState "b").sessions) :=
  processMessage_unregistered tickClock Faults.none (onClose trioState "b") "b" .null rfl

end MissionChat
